import Mathlib

/-!
Verification development for the log-reconciliation core of a federated
SPARQL benchmarking harness.  The Python sources are shallowly embedded:
text is modelled as `String` / `List Char`, regular-expression scans as
explicit character scanners, the file system as a lookup function from
file names to optional line lists, Python exceptions as an `Except` error
type with one constructor per raise site, and floating-point durations as
rationals.  Definitions mirror `organize_data.py` (parser, classifier,
aggregator) function by function.
-/

namespace FedSurvey

/-- Whitespace characters recognised by Python's `str.strip` and the
regex class in ASCII text: space, tab, newline, carriage return,
vertical tab, form feed. -/
def isPyWs (c : Char) : Bool :=
  c == ' ' || c == '\t' || c == '\n' || c == '\r' ||
  c == Char.ofNat 11 || c == Char.ofNat 12

/-- Python `str.strip()` on a character list. -/
def pyStrip (cs : List Char) : List Char :=
  ((cs.dropWhile isPyWs).reverse.dropWhile isPyWs).reverse

/-- Substring containment on character lists, Python's `pat in hay`. -/
def containsSub (hay pat : List Char) : Bool :=
  match hay with
  | [] => pat.isEmpty
  | _ :: t => pat.isPrefixOf hay || containsSub t pat

/-- Substring containment on strings. -/
def strContains (hay pat : String) : Bool :=
  containsSub hay.data pat.data

/-- Python `str.startswith` on strings. -/
def strStartsWith (s p : String) : Bool :=
  p.data.isPrefixOf s.data

/-- Python `str.endswith` on strings. -/
def strEndsWith (s p : String) : Bool :=
  p.data.isSuffixOf s.data

/-- Python `str.lower` restricted to ASCII case mapping. -/
def strLower (s : String) : String :=
  ⟨s.data.map Char.toLower⟩

/-- Strip trailing `/` characters, Python `u.rstrip("/")`. -/
def rstripSlash (u : String) : String :=
  ⟨(u.data.reverse.dropWhile (· == '/')).reverse⟩

/-- Characters of a string up to (excluding) the first line break;
Python `s.splitlines()[0]` on the texts in scope. -/
def firstLine (cs : List Char) : List Char :=
  cs.takeWhile (fun c => c ≠ '\n' ∧ c ≠ '\r')

/-- Python slice `cs[a:b]`. -/
def sliceChars (cs : List Char) (a b : Nat) : List Char :=
  (cs.drop a).take (b - a)

/-- Value of a list of decimal digits. -/
def digitsToNat (ds : List Char) : Nat :=
  ds.foldl (fun acc c => acc * 10 + (c.toNat - 48)) 0

/-- Decimal rendering of `n` left-padded with zeros to width `w`. -/
def padNat (w n : Nat) : String :=
  let s := Nat.repr n
  ⟨List.replicate (w - s.length) '0'⟩ ++ s

/-!  Timestamps.  `_parse_iso` in the source tries
`%Y-%m-%dT%H:%M:%S.%f` and then `%Y-%m-%dT%H:%M:%S`; `strptime` demands
exactly four year digits, one or two digits for the other fields, one to
six fractional digits, and the `datetime` constructor validates the
calendar ranges.  A parsed timestamp is seven fields. -/

structure DateTime where
  year : Nat
  month : Nat
  day : Nat
  hour : Nat
  minute : Nat
  second : Nat
  microsecond : Nat
deriving DecidableEq, Inhabited

def isLeapYear (y : Nat) : Bool :=
  (y % 4 == 0 && y % 100 ≠ 0) || y % 400 == 0

def daysInMonth (y m : Nat) : Nat :=
  if m = 2 then (if isLeapYear y then 29 else 28)
  else if m = 4 ∨ m = 6 ∨ m = 9 ∨ m = 11 then 30
  else 31

/-- Field validation performed by `datetime.strptime` together with the
`datetime` constructor. -/
def validDateTime (y mo d h mi s us : Nat) : Bool :=
  decide (1 ≤ y ∧ y ≤ 9999 ∧ 1 ≤ mo ∧ mo ≤ 12 ∧ 1 ≤ d ∧ d ≤ daysInMonth y mo ∧
    h ≤ 23 ∧ mi ≤ 59 ∧ s ≤ 59 ∧ us ≤ 999999)

/-- Exactly `n` decimal digits from the front of `cs`. -/
def takeDigitsExact (n : Nat) (cs : List Char) : Option (Nat × List Char) :=
  let ds := cs.take n
  if ds.length = n ∧ ds.all Char.isDigit then some (digitsToNat ds, cs.drop n)
  else none

/-- One or two decimal digits, greedily, from the front of `cs`
(`strptime` field patterns such as `%m`). -/
def takeDigits1to2 (cs : List Char) : Option (Nat × List Char) :=
  match cs with
  | [] => none
  | [c] => if c.isDigit then some (c.toNat - 48, []) else none
  | c1 :: c2 :: rest =>
    if c1.isDigit then
      if c2.isDigit then some ((c1.toNat - 48) * 10 + (c2.toNat - 48), rest)
      else some (c1.toNat - 48, c2 :: rest)
    else none

def expectChar (c : Char) (cs : List Char) : Option (List Char) :=
  match cs with
  | d :: rest => if d = c then some rest else none
  | [] => none

/-- The shared `%Y-%m-%dT%H:%M:%S` head of both accepted formats. -/
def parseBaseFields (cs : List Char) :
    Option (Nat × Nat × Nat × Nat × Nat × Nat × List Char) :=
  match takeDigitsExact 4 cs with
  | none => none
  | some (y, r1) =>
    match expectChar '-' r1 with
    | none => none
    | some r2 =>
      match takeDigits1to2 r2 with
      | none => none
      | some (mo, r3) =>
        match expectChar '-' r3 with
        | none => none
        | some r4 =>
          match takeDigits1to2 r4 with
          | none => none
          | some (d, r5) =>
            match expectChar 'T' r5 with
            | none => none
            | some r6 =>
              match takeDigits1to2 r6 with
              | none => none
              | some (h, r7) =>
                match expectChar ':' r7 with
                | none => none
                | some r8 =>
                  match takeDigits1to2 r8 with
                  | none => none
                  | some (mi, r9) =>
                    match expectChar ':' r9 with
                    | none => none
                    | some r10 =>
                      match takeDigits1to2 r10 with
                      | none => none
                      | some (s, r11) => some (y, mo, d, h, mi, s, r11)

/-- `%f` value: digits right-padded to microseconds. -/
def padMicro (ds : List Char) : Nat :=
  digitsToNat ds * 10 ^ (6 - ds.length)

def mkValidDateTime (y mo d h mi s us : Nat) : Option DateTime :=
  if validDateTime y mo d h mi s us then some ⟨y, mo, d, h, mi, s, us⟩ else none

/-- `datetime.strptime` against the two formats tried by `_parse_iso`:
with fractional seconds (one to six digits, then end of string) or
without (end of string directly after the seconds). -/
def strptimeIsoOpt (s : String) : Option DateTime :=
  match parseBaseFields s.data with
  | none => none
  | some (y, mo, d, h, mi, sec, rest) =>
    match rest with
    | [] => mkValidDateTime y mo d h mi sec 0
    | '.' :: ds =>
      let digs := ds.takeWhile Char.isDigit
      if 1 ≤ digs.length ∧ digs.length ≤ 6 ∧ ds.drop digs.length = [] then
        mkValidDateTime y mo d h mi sec (padMicro digs)
      else none
    | _ => none

/-- `datetime.isoformat()`: fractional part omitted when the microsecond
field is zero, otherwise six zero-padded digits. -/
def isoformat (dt : DateTime) : String :=
  padNat 4 dt.year ++ "-" ++ padNat 2 dt.month ++ "-" ++ padNat 2 dt.day ++ "T" ++
  padNat 2 dt.hour ++ ":" ++ padNat 2 dt.minute ++ ":" ++ padNat 2 dt.second ++
  (if dt.microsecond = 0 then "" else "." ++ padNat 6 dt.microsecond)

/-- Mixed-radix key realising `datetime` comparison: every field of a
validated timestamp is strictly below its radix, so the key order is
exactly the lexicographic field order Python compares with. -/
def toKey (dt : DateTime) : Nat :=
  (((((dt.year * 13 + dt.month) * 32 + dt.day) * 24 + dt.hour) * 60 + dt.minute) * 60 +
      dt.second) * 1000000 + dt.microsecond

/-- Day number of a civil date (standard era/year-of-era computation,
as used by `datetime` subtraction). -/
def rataDie (y m d : Nat) : Nat :=
  let a := if m ≤ 2 then y - 1 else y
  let era := a / 400
  let yoe := a % 400
  let mp := (m + 9) % 12
  let doy := (153 * mp + 2) / 5 + (d - 1)
  let doe := yoe * 365 + yoe / 4 - yoe / 100 + doy
  era * 146097 + doe

/-- Microseconds of a timestamp on an absolute axis. -/
def toEpochMicro (dt : DateTime) : Int :=
  ((rataDie dt.year dt.month dt.day : Int) - 719468) * 86400000000 +
    ((dt.hour * 3600 + dt.minute * 60 + dt.second) * 1000000 + dt.microsecond : Nat)

/-- `(e - s).total_seconds()` as an exact rational. -/
def microDiffSeconds (s e : DateTime) : ℚ :=
  ((toEpochMicro e - toEpochMicro s : ℤ) : ℚ) / 1000000

/-- Python `min(a, b)` on timestamps: keeps the first argument unless the
second is strictly smaller. -/
def pyMinDT (a b : DateTime) : DateTime :=
  if toKey b < toKey a then b else a

/-- Python `max(a, b)` on timestamps. -/
def pyMaxDT (a b : DateTime) : DateTime :=
  if toKey a < toKey b then b else a

/-!  Python exceptions, one constructor per raise site reached by the
embedded code paths. -/

inductive PyErr where
  /-- `ValueError` for fewer than three blank-line sections. -/
  | malformedStructure
  /-- `ValueError` for missing boundary timestamps. -/
  | missingBoundaryTs
  /-- `ValueError` raised by `_parse_iso`. -/
  | badTimestamp (ts : String)
  /-- `TypeError` from operations on `None` (missing query name). -/
  | noneTypeError
  /-- `FileNotFoundError` for a zip archive with no file members. -/
  | zipNoFiles
  /-- `ValueError` for a zip archive with ambiguous candidate members. -/
  | zipAmbiguous
  /-- `FileNotFoundError` for an explicitly named member that is absent. -/
  | zipMemberNotFound
deriving DecidableEq

/-- `_parse_iso`: first timestamp format, then the second, else
`ValueError`. -/
def _parse_iso (s : String) : Except PyErr DateTime :=
  match strptimeIsoOpt s with
  | some dt => .ok dt
  | none => .error (.badTimestamp s)

/-!  Block and section splitting (`re.split` calls in
`parse_batch_log`). -/

/-- Worker for splitting on runs of two or more newlines. -/
def splitBlocksAux : Nat → List Char → List Char → List (List Char)
  | _, acc, [] => [acc.reverse]
  | 0, acc, rest => [acc.reverse ++ rest]
  | fuel+1, acc, '\n' :: '\n' :: rest =>
    acc.reverse :: splitBlocksAux fuel [] (rest.dropWhile (· == '\n'))
  | fuel+1, acc, c :: rest => splitBlocksAux fuel (c :: acc) rest

/-- `re.split(r"\n{2,}", text)`. -/
def splitBlocks (cs : List Char) : List (List Char) :=
  splitBlocksAux cs.length [] cs

def execMarker : List Char := "Executing: ".data

/-- Worker for splitting before every line that starts with the
execution marker. -/
def splitSectionsAux (acc : List Char) : List Char → List (List Char)
  | [] => [acc.reverse]
  | '\n' :: rest =>
    if execMarker.isPrefixOf rest then acc.reverse :: splitSectionsAux [] rest
    else splitSectionsAux ('\n' :: acc) rest
  | c :: rest => splitSectionsAux (c :: acc) rest

/-- `re.split(r"\n(?=Executing: )", text)`. -/
def splitSections (cs : List Char) : List (List Char) :=
  splitSectionsAux [] cs

/-!  The `ISO_RE` scanner:
`\d{4}-\d{2}-\d{2}T\d{2}:\d{2}:\d{2}(?:\.\d+)?`. -/

/-- Exactly `n` digits from the front, returning the characters. -/
def takeCharsDigits (n : Nat) (cs : List Char) : Option (List Char × List Char) :=
  let ds := cs.take n
  if ds.length = n ∧ ds.all Char.isDigit then some (ds, cs.drop n) else none

/-- Attempt to match `ISO_RE` at the head of `cs`; on success return the
matched characters and the remainder. -/
def isoMatchAt (cs : List Char) : Option (List Char × List Char) := do
  let (a, r1) ← takeCharsDigits 4 cs
  let r2 ← expectChar '-' r1
  let (b, r3) ← takeCharsDigits 2 r2
  let r4 ← expectChar '-' r3
  let (c, r5) ← takeCharsDigits 2 r4
  let r6 ← expectChar 'T' r5
  let (d, r7) ← takeCharsDigits 2 r6
  let r8 ← expectChar ':' r7
  let (e, r9) ← takeCharsDigits 2 r8
  let r10 ← expectChar ':' r9
  let (f, r11) ← takeCharsDigits 2 r10
  let base := a ++ '-' :: b ++ '-' :: c ++ 'T' :: d ++ ':' :: e ++ ':' :: f
  match r11 with
  | '.' :: ds =>
    let digs := ds.takeWhile Char.isDigit
    if digs.isEmpty then pure (base, r11)
    else pure (base ++ '.' :: digs, ds.drop digs.length)
  | _ => pure (base, r11)

/-- Worker for `re.findall(ISO_RE, s)`: left-to-right, non-overlapping. -/
def isoFindAllAux : Nat → List Char → List String
  | 0, _ => []
  | _, [] => []
  | fuel+1, cs@(_ :: rest) =>
    match isoMatchAt cs with
    | some (m, r) => String.mk m :: isoFindAllAux fuel r
    | none => isoFindAllAux fuel rest

/-- `re.findall(ISO_RE, s)`. -/
def isoFindAll (cs : List Char) : List String :=
  isoFindAllAux cs.length cs

/-!  Per-query field extraction scanners. -/

/-- A successful `re.search` for a timestamp label: start index, end
index, captured ISO string. -/
structure TsMatch where
  startIdx : Nat
  endIdx : Nat
  iso : String
deriving DecidableEq

/-- Match `<label>\s*<ISO_RE>` at the head of `cs`, returning the total
matched length and the captured timestamp. -/
def tsMatchAt (label : List Char) (cs : List Char) : Option (Nat × String) :=
  if label.isPrefixOf cs then
    let r := cs.drop label.length
    let ws := r.takeWhile isPyWs
    match isoMatchAt (r.drop ws.length) with
    | some (m, _) => some (label.length + ws.length + m.length, String.mk m)
    | none => none
  else none

/-- Worker for the first (leftmost) timestamp-label match. -/
def searchTsAux (label : List Char) : Nat → Nat → List Char → Option TsMatch
  | 0, _, _ => none
  | _, _, [] => none
  | fuel+1, i, cs@(_ :: rest) =>
    match tsMatchAt label cs with
    | some (len, iso) => some ⟨i, i + len, iso⟩
    | none => searchTsAux label fuel (i + 1) rest

/-- `re.search(label + ISO_RE, sec)` with match span. -/
def searchTs (label : List Char) (cs : List Char) : Option TsMatch :=
  searchTsAux label cs.length 0 cs

def tsStartLabel : List Char := "Timestamp (start):".data

def tsEndLabel : List Char := "Timestamp (end):".data

/-- Match `-f\s+([^\s]+)` at the head of `cs`, returning the capture. -/
def dashFMatchAt (cs : List Char) : Option String :=
  match cs with
  | '-' :: 'f' :: r =>
    let ws := r.takeWhile isPyWs
    if ws.isEmpty then none
    else
      let r2 := r.drop ws.length
      let tok := r2.takeWhile (fun c => !isPyWs c)
      if tok.isEmpty then none else some (String.mk tok)
  | _ => none

/-- Worker for the leftmost `-f` flag match. -/
def searchDashFAux : Nat → List Char → Option String
  | 0, _ => none
  | _, [] => none
  | fuel+1, cs@(_ :: rest) =>
    match dashFMatchAt cs with
    | some t => some t
    | none => searchDashFAux fuel rest

/-- `re.search(r"-f\s+([^\s]+)", sec)`, capture only. -/
def searchDashF (cs : List Char) : Option String :=
  searchDashFAux cs.length cs

/-- `os.path.basename`: the part after the final slash. -/
def basenameStr (s : String) : String :=
  ⟨(s.data.reverse.takeWhile (· ≠ '/')).reverse⟩

/-- `exec_line.split("-f")[0]`: everything before the first `-f`. -/
def beforeDashF : List Char → List Char
  | [] => []
  | '-' :: 'f' :: _ => []
  | c :: rest => c :: beforeDashF rest

/-- Body of a URL match after its scheme: `[^\s']+`, at least one
character. -/
def urlBody (pre : List Char) (r : List Char) : Option (String × List Char) :=
  let body := r.takeWhile (fun c => !(isPyWs c || c == '\''))
  if body.isEmpty then none else some (String.mk (pre ++ body), r.drop body.length)

/-- Match `URL_RE = https?://[^\s']+` at the head of `cs`. -/
def urlMatchAt (cs : List Char) : Option (String × List Char) :=
  if "https://".data.isPrefixOf cs then urlBody "https://".data (cs.drop 8)
  else if "http://".data.isPrefixOf cs then urlBody "http://".data (cs.drop 7)
  else none

/-- Worker for `re.findall(URL_RE, s)`. -/
def findUrlsAux : Nat → List Char → List String
  | 0, _ => []
  | _, [] => []
  | fuel+1, cs@(_ :: rest) =>
    match urlMatchAt cs with
    | some (u, r) => u :: findUrlsAux fuel r
    | none => findUrlsAux fuel rest

/-- `re.findall(URL_RE, s)`. -/
def findUrls (cs : List Char) : List String :=
  findUrlsAux cs.length cs

def errLabel : List Char := "Error executing command for".data

/-- Match `Error executing command for\s+[^\n:]+:\s*(.*)` at the head of
`cs` (existence only — the capture is never used by the parser). -/
def errLineMatchAt (cs : List Char) : Bool :=
  if errLabel.isPrefixOf cs then
    let r := cs.drop errLabel.length
    let ws := r.takeWhile isPyWs
    if ws.isEmpty then false
    else
      let r2 := r.drop ws.length
      let body := r2.takeWhile (fun c => c ≠ '\n' ∧ c ≠ ':')
      if body.isEmpty then false
      else
        match r2.drop body.length with
        | ':' :: _ => true
        | _ => false
  else false

/-- Worker scanning all positions for the error line pattern. -/
def errorLineMatchesAux : Nat → List Char → Bool
  | 0, _ => false
  | _, [] => false
  | fuel+1, cs@(_ :: rest) => errLineMatchAt cs || errorLineMatchesAux fuel rest

/-- Truthiness of `re.search(r"Error executing command for\s+[^\n:]+:\s*(.*)", sec)`. -/
def errorLineMatches (cs : List Char) : Bool :=
  errorLineMatchesAux cs.length cs

/-- Match `Output:\s*(\{.*)` (DOTALL) at the head of `cs`: literal
marker, optional whitespace, then an opening brace; the capture runs to
the end of the text. -/
def outputMatchAt (cs : List Char) : Option (List Char) :=
  if "Output:".data.isPrefixOf cs then
    let r := (cs.drop 7).dropWhile isPyWs
    match r with
    | c :: _ => if c = Char.ofNat 123 then some r else none
    | [] => none
  else none

/-- Worker for the leftmost `Output:` payload match. -/
def findOutputJsonAux : Nat → List Char → Option (List Char)
  | 0, _ => none
  | _, [] => none
  | fuel+1, cs@(_ :: rest) =>
    match outputMatchAt cs with
    | some r => some r
    | none => findOutputJsonAux fuel rest

/-- `re.search(r"Output:\s*(\{.*)", mid, flags=re.DOTALL)`, capture. -/
def findOutputJson (cs : List Char) : Option (List Char) :=
  findOutputJsonAux cs.length cs

/-- `json_text[:json_text.rfind("}")+1]`, or the text unchanged when no
closing brace exists. -/
def truncAtLastBrace (cs : List Char) : List Char :=
  let r := (cs.reverse.dropWhile (fun c => c ≠ Char.ofNat 125)).reverse
  if r.isEmpty then cs else r

/-!  ANSI stripping (`ANSI_ESCAPE.sub("", s)` in `_strip_ansi`). -/

def isAnsiSingle (c : Char) : Bool :=
  (64 ≤ c.toNat && c.toNat ≤ 90) || (92 ≤ c.toNat && c.toNat ≤ 95)

def isAnsiParam (c : Char) : Bool := 48 ≤ c.toNat && c.toNat ≤ 63

def isAnsiInter (c : Char) : Bool := 32 ≤ c.toNat && c.toNat ≤ 47

def isAnsiFinal (c : Char) : Bool := 64 ≤ c.toNat && c.toNat ≤ 126

/-- Worker removing every match of the `ANSI_ESCAPE` pattern. -/
def stripAnsiAux : Nat → List Char → List Char
  | 0, cs => cs
  | _, [] => []
  | fuel+1, c :: rest =>
    if c = Char.ofNat 27 then
      match rest with
      | '[' :: r2 =>
        let afterParams := r2.dropWhile isAnsiParam
        let afterInter := afterParams.dropWhile isAnsiInter
        match afterInter with
        | f :: r3 =>
          if isAnsiFinal f then stripAnsiAux fuel r3
          else c :: stripAnsiAux fuel rest
        | [] => c :: stripAnsiAux fuel rest
      | d :: r2 =>
        if isAnsiSingle d then stripAnsiAux fuel r2
        else c :: stripAnsiAux fuel rest
      | [] => [c]
    else c :: stripAnsiAux fuel rest

/-- `_strip_ansi`. -/
def _strip_ansi (s : String) : String :=
  ⟨stripAnsiAux s.data.length s.data⟩

/-!  Error classification (`ERROR_PATTERNS` and
`getLogDataFromFileOrZipped`). -/

/-- The fixed ordered pattern list from `organize_data.py`. -/
def ERROR_PATTERNS : List String :=
  ["FATAL ERROR: Reached heap limit Allocation failed",
   "fetch failed",
   "DEBUG: Server reported client-side error",
   "DEBUG: Server-side error encountered"]

/-- One step of `process_lines`: request counting, first-match error
lookup in pattern order, and last-line tracking. -/
def glScanLine (has_error : Bool) (st : Nat × Option String × String)
    (line : String) : Nat × Option String × String :=
  let count := if strContains line "INFO: Requesting" then st.1 + 1 else st.1
  let found :=
    if has_error && st.2.1.isNone then ERROR_PATTERNS.find? (fun pat => strContains line pat)
    else st.2.1
  (count, found, line)

/-- `getLogDataFromFileOrZipped` on the decoded line list of the
auxiliary log: returns the `INFO: Requesting` line count and, when an
error is being recorded, the classification text. -/
def getLogDataFromFileOrZipped (has_error : Bool) (lines : List String) :
    Nat × Option String :=
  let st := lines.foldl (glScanLine has_error) (0, none, "")
  if !has_error then (st.1, none)
  else if st.2.2 = "" then (st.1, some "")
  else
    match st.2.1 with
    | some p => (st.1, some p)
    | none =>
      let cleaned := _strip_ansi st.2.2
      if strContains cleaned "[" then (st.1, some "Unknown Error") else (st.1, some cleaned)

/-!  `_read_text_maybe_zipped`: transparent reading of plain or
zip-wrapped text.  A path is either a plain file or a zip archive whose
members carry names and already-decoded contents. -/

inductive FileInput where
  | plain (text : String)
  | zipArchive (members : List (String × String))
deriving DecidableEq

/-- Non-directory member names of an archive (`zf.namelist()` filtered). -/
def zipNames (members : List (String × String)) : List String :=
  (members.map Prod.fst).filter (fun n => !strEndsWith n "/")

/-- `zf.open(member)`: content of the first member with that name. -/
def zipOpen (members : List (String × String)) (name : String) : String :=
  ((members.find? (fun m => m.1 == name)).map Prod.snd).getD ""

/-- `_read_text_maybe_zipped(path, member)`. -/
def _read_text_maybe_zipped (input : FileInput) (member : Option String) :
    Except PyErr String :=
  match input with
  | .plain text => .ok text
  | .zipArchive members =>
    let names := zipNames members
    if names.isEmpty then .error .zipNoFiles
    else
      match member with
      | none =>
        let txts := names.filter (fun n => strEndsWith (strLower n) ".txt")
        if txts.length = 1 then .ok (zipOpen members (txts.headD ""))
        else if txts.length = 0 ∧ names.length = 1 then .ok (zipOpen members (names.headD ""))
        else .error .zipAmbiguous
      | some m => if m ∈ names then .ok (zipOpen members m) else .error .zipMemberNotFound

/-!  JSON values and a strict recursive-descent reader standing for
`json.loads` (objects, arrays, strings without unicode escapes, strict
number grammar, literals, and the CPython `NaN`/`Infinity` extensions;
the whole input must be consumed). -/

inductive Json where
  | null
  | jbool (b : Bool)
  | jnum (raw : String)
  | jstr (s : String)
  | jarr (elems : List Json)
  | jobj (fields : List (String × Json))
deriving Inhabited

/-- JSON whitespace accepted by `json.loads`. -/
def jsonSkipWs (cs : List Char) : List Char :=
  cs.dropWhile (fun c => c == ' ' || c == '\t' || c == '\n' || c == '\r')

/-- Escape table of strict JSON string decoding (`\u` unsupported,
making the reader accept a subset of what `json.loads` accepts). -/
def jsonEscape (c : Char) : Option Char :=
  if c = '"' then some '"'
  else if c = '\\' then some '\\'
  else if c = '/' then some '/'
  else if c = 'b' then some (Char.ofNat 8)
  else if c = 'f' then some (Char.ofNat 12)
  else if c = 'n' then some '\n'
  else if c = 'r' then some '\r'
  else if c = 't' then some '\t'
  else none

/-- String body reader: characters after the opening quote. -/
def jsonStringAux : Nat → List Char → List Char → Option (String × List Char)
  | 0, _, _ => none
  | _, _, [] => none
  | fuel+1, acc, c :: rest =>
    if c = '"' then some (String.mk acc.reverse, rest)
    else if c = '\\' then
      match rest with
      | e :: r2 =>
        match jsonEscape e with
        | some d => jsonStringAux fuel (d :: acc) r2
        | none => none
      | [] => none
    else if c.toNat < 32 then none
    else jsonStringAux fuel (c :: acc) rest

/-- Digit run, at least one digit. -/
def digits1 (cs : List Char) : Option (List Char × List Char) :=
  let ds := cs.takeWhile Char.isDigit
  if ds.isEmpty then none else some (ds, cs.drop ds.length)

/-- Strict JSON number grammar: `-? (0 | [1-9][0-9]*) (\.[0-9]+)?
([eE][-+]?[0-9]+)?`, returned as its raw text. -/
def jsonNumberAt (cs : List Char) : Option (String × List Char) :=
  let (sign, r0) :=
    match cs with
    | '-' :: r => (['-'], r)
    | _ => (([] : List Char), cs)
  match digits1 r0 with
  | none => none
  | some (ip, r1) =>
    if 1 < ip.length ∧ ip.headD '0' = '0' then none
    else
      let (fp, r2) :=
        match r1 with
        | '.' :: rf =>
          match digits1 rf with
          | some (ds, rr) => ('.' :: ds, rr)
          | none => (([] : List Char), r1)
        | _ => (([] : List Char), r1)
      let (ep, r3) :=
        match r2 with
        | e :: rf =>
          if e = 'e' ∨ e = 'E' then
            let (es, rf2) :=
              match rf with
              | '+' :: rr => (['+'], rr)
              | '-' :: rr => (['-'], rr)
              | _ => (([] : List Char), rf)
            match digits1 rf2 with
            | some (ds, rr) => (e :: (es ++ ds), rr)
            | none => (([] : List Char), r2)
          else (([] : List Char), r2)
        | [] => (([] : List Char), r2)
      some (String.mk (sign ++ ip ++ fp ++ ep), r3)

/-- Reader state: a value, the element loop of an array, or the member
loop of an object (loop entry points have surrounding whitespace already
skipped and carry the elements read so far). -/
inductive JMode where
  | value
  | arrayElems (first : Bool) (acc : List Json)
  | objectMems (first : Bool) (acc : List (String × Json))

/-- Reader for the `json.loads` model; `fuel` bounds the recursion and
is chosen generously by `jsonLoads`. -/
def jsonParse : Nat → JMode → List Char → Option (Json × List Char)
  | 0, _, _ => none
  | fuel+1, .value, cs =>
    match cs with
    | [] => none
    | c :: rest =>
      if c = '"' then
        match jsonStringAux (rest.length + 1) [] rest with
        | some (s, r) => some (.jstr s, r)
        | none => none
      else if c = Char.ofNat 123 then jsonParse fuel (.objectMems true []) (jsonSkipWs rest)
      else if c = '[' then jsonParse fuel (.arrayElems true []) (jsonSkipWs rest)
      else if "null".data.isPrefixOf cs then some (.null, cs.drop 4)
      else if "true".data.isPrefixOf cs then some (.jbool true, cs.drop 4)
      else if "false".data.isPrefixOf cs then some (.jbool false, cs.drop 5)
      else if "NaN".data.isPrefixOf cs then some (.jnum "NaN", cs.drop 3)
      else if "Infinity".data.isPrefixOf cs then some (.jnum "Infinity", cs.drop 8)
      else if "-Infinity".data.isPrefixOf cs then some (.jnum "-Infinity", cs.drop 9)
      else
        match jsonNumberAt cs with
        | some (n, r) => some (.jnum n, r)
        | none => none
  | fuel+1, .arrayElems first acc, cs =>
    match cs with
    | ']' :: r => if first then some (.jarr [], r) else none
    | _ =>
      match jsonParse fuel .value cs with
      | none => none
      | some (v, r) =>
        match jsonSkipWs r with
        | ',' :: r2 => jsonParse fuel (.arrayElems false (v :: acc)) (jsonSkipWs r2)
        | ']' :: r2 => some (.jarr (v :: acc).reverse, r2)
        | _ => none
  | fuel+1, .objectMems first acc, cs =>
    match cs with
    | '"' :: r =>
      match jsonStringAux (r.length + 1) [] r with
      | none => none
      | some (k, r1) =>
        match jsonSkipWs r1 with
        | ':' :: r2 =>
          match jsonParse fuel .value (jsonSkipWs r2) with
          | none => none
          | some (v, r3) =>
            match jsonSkipWs r3 with
            | ',' :: r4 => jsonParse fuel (.objectMems false ((k, v) :: acc)) (jsonSkipWs r4)
            | c :: r4 =>
              if c = Char.ofNat 125 then some (.jobj ((k, v) :: acc).reverse, r4) else none
            | [] => none
        | _ => none
    | c :: _r =>
      if c = Char.ofNat 125 ∧ first then some (.jobj [], _r) else none
    | [] => none

/-- `json.loads` model: a full-input value read. -/
def jsonLoads (cs : List Char) : Option Json :=
  match jsonParse (2 * cs.length + 2) .value (jsonSkipWs cs) with
  | some (v, rest) => if jsonSkipWs rest = [] then some v else none
  | none => none

/-- Python `dict` lookup: last binding of a duplicated key wins. -/
def jsonGetLast (fields : List (String × Json)) (k : String) : Option Json :=
  ((fields.filter (fun p => p.1 == k)).getLast?).map Prod.snd

/-- `data.get("results", {}).get("bindings")` followed by the
`isinstance(bindings, list)` test; any shape that would raise inside the
swallowed `try` block yields `none`. -/
def getBindings (data : Json) : Option (List Json) :=
  match data with
  | .jobj fs =>
    match (jsonGetLast fs "results").getD (.jobj []) with
    | .jobj gs =>
      match jsonGetLast gs "bindings" with
      | some (.jarr bs) => some bs
      | _ => none
    | _ => none
  | _ => none

/-!  Per-query records and the batch-log parser (`parse_batch_log`).
The directory holding auxiliary per-query logs is abstracted as a lookup
from file names to optional decoded line lists; `file_exists` is
`Option.isSome` of that lookup. -/

structure QueryRecord where
  query_name : Option String
  sources : List String
  start : String
  end_ : String
  duration_seconds : Option ℚ
  http_requests : Nat
  produced_results : Bool
  results_count : Nat
  error : Option String
deriving DecidableEq, Inhabited

/-- Order-preserving deduplication worker (`seen` set plus output
list). -/
def dedupKeepFirstAux (seen : List String) : List String → List String
  | [] => []
  | u :: rest =>
    if u ∈ seen then dedupKeepFirstAux seen rest
    else u :: dedupKeepFirstAux (u :: seen) rest

/-- Deduplicate preserving first-seen order. -/
def dedupKeepFirst (l : List String) : List String :=
  dedupKeepFirstAux [] l

/-- `os.path.basename(qfile_match.group(1))` when the `-f` flag is
found. -/
def sectionQueryName (sec : List Char) : Option String :=
  (searchDashF sec).map basenameStr

/-- URL tokens of the execution line before `-f`, filtered to `http`
schemes and slash-stripped (the list comprehension over
`re.findall(URL_RE, pre_f)`). -/
def sectionUrlTokens (sec : List Char) : List String :=
  ((findUrls (beforeDashF (firstLine sec))).filter
      (fun u => strStartsWith u "http")).map rstripSlash

/-- Source URLs of a section: URL tokens of the execution line before
`-f`, slash-stripped, deduplicated preserving order. -/
def sectionSources (sec : List Char) : List String :=
  dedupKeepFirst (sectionUrlTokens sec)

/-- `sec[start_m.end():end_m.start()]` when both timestamp labels match,
else the empty text. -/
def sectionMid (sec : List Char) : List Char :=
  match searchTs tsStartLabel sec, searchTs tsEndLabel sec with
  | some sm, some em => sliceChars sec sm.endIdx em.startIdx
  | _, _ => []

/-- Inline payload inspection: the `Output:` JSON between the
timestamps, truncated at the last closing brace, decoded, and required
to hold a list-valued `bindings` field.  Returns
`(produced_results, results_count)`. -/
def sectionPayload (sec : List Char) : Bool × Nat :=
  match findOutputJson (sectionMid sec) with
  | none => (false, 0)
  | some jsRaw =>
    match jsonLoads (truncAtLastBrace jsRaw) with
    | none => (false, 0)
    | some data =>
      match getBindings data with
      | some bs => (decide (0 ≤ bs.length), bs.length)
      | none => (false, 0)

/-- Probe `<qname>.log` then `<qname>.log.zip` in the batch log's
directory. -/
def auxLookup (fs : String → Option (List String)) (qn : String) :
    Option (List String) :=
  match fs (qn ++ ".log") with
  | some ls => some ls
  | none => fs (qn ++ ".log.zip")

/-- HTTP-request recovery for a successful query (`has_error=False`),
zero when no auxiliary log exists. -/
def auxHttp (fs : String → Option (List String)) (qn : String) : Nat :=
  match auxLookup fs qn with
  | some ls => (getLogDataFromFileOrZipped false ls).1
  | none => 0

/-- `_parse_iso(m.group(1)) if m else None`. -/
def parseOptTs : Option TsMatch → Except PyErr (Option DateTime)
  | none => .ok none
  | some m => (_parse_iso m.iso).map some

/-- `ts.isoformat() if ts else "None"`. -/
def fmtOptTs : Option DateTime → String
  | some d => isoformat d
  | none => "None"

/-- The branch of `parse_batch_log` that settles the record's
HTTP-request count and error text, together with the new value of the
loop-level `http_count` accumulator (the two always coincide).  A
missing query name makes the `query_name + ".log"` concatenation raise
`TypeError`. -/
def sectionHttpError (fs : String → Option (List String)) (sec : List Char)
    (produced : Bool) (http_count : Nat) : Except PyErr (Nat × Option String) :=
  if produced then
    match sectionQueryName sec with
    | none => .error .noneTypeError
    | some qn => .ok (auxHttp fs qn, some "None")
  else if errorLineMatches sec then
    match sectionQueryName sec with
    | none => .error .noneTypeError
    | some qn =>
      match auxLookup fs qn with
      | some ls =>
        let r := getLogDataFromFileOrZipped true ls
        .ok (r.1, r.2)
      | none => .ok (http_count, some "Unknown Error")
  else .ok (http_count, none)

/-- One iteration of the section loop of `parse_batch_log`, producing
the emitted record and the updated `http_count` accumulator. -/
def processSection (fs : String → Option (List String)) (sec : List Char)
    (http_count : Nat) : Except PyErr (QueryRecord × Nat) :=
  match parseOptTs (searchTs tsStartLabel sec) with
  | .error e => .error e
  | .ok startTs =>
    match parseOptTs (searchTs tsEndLabel sec) with
    | .error e => .error e
    | .ok endTs =>
      match sectionHttpError fs sec (sectionPayload sec).1 http_count with
      | .error e => .error e
      | .ok he =>
        .ok (⟨sectionQueryName sec, sectionSources sec, fmtOptTs startTs, fmtOptTs endTs,
              (match startTs, endTs with
               | some s, some e => some (microDiffSeconds s e)
               | _, _ => none),
              he.1, (sectionPayload sec).1,
              (if (sectionPayload sec).1 then (sectionPayload sec).2 else 0), he.2⟩, he.1)

/-- The section loop: sections not beginning with the execution marker
are skipped; `http_count` is threaded through exactly as the
loop-scoped accumulator in the source is. -/
def processSections (fs : String → Option (List String)) :
    List (List Char) → Nat → Except PyErr (List QueryRecord × Nat)
  | [], http_count => .ok ([], http_count)
  | sec :: rest, http_count =>
    if execMarker.isPrefixOf sec then
      match processSection fs sec http_count with
      | .error e => .error e
      | .ok rh =>
        match processSections fs rest rh.2 with
        | .error e => .error e
        | .ok rs => .ok (rh.1 :: rs.1, rs.2)
    else processSections fs rest http_count

structure BatchSummary where
  run_start : String
  run_end : String
  run_duration_seconds : ℚ
  entries : List QueryRecord
deriving DecidableEq, Inhabited

/-- `parse_batch_log` on the already-read text of a batch log, with the
surrounding directory abstracted as `fs`. -/
def parse_batch_log (fs : String → Option (List String)) (text : String) :
    Except PyErr BatchSummary :=
  let stripped := pyStrip text.data
  let blocks := splitBlocks stripped
  if blocks.length < 3 then .error .malformedStructure
  else
    let firstTs := isoFindAll (blocks.headD [])
    let lastTs := isoFindAll (blocks.getLastD [])
    if firstTs.isEmpty ∨ lastTs.isEmpty then .error .missingBoundaryTs
    else
      match _parse_iso (firstTs.headD "") with
      | .error e => .error e
      | .ok runStart =>
        match _parse_iso (lastTs.getLastD "") with
        | .error e => .error e
        | .ok runEnd =>
          match processSections fs (splitSections stripped) 0 with
          | .error e => .error e
          | .ok entries =>
            .ok ⟨isoformat runStart, isoformat runEnd,
                 microDiffSeconds runStart runEnd, entries.1⟩

/-!  Aggregation across batch logs (`main` loop and
`get_general_stats`). -/

structure GeneralStatsIn where
  run_start : Option String
  run_end : Option String
  run_duration_seconds : ℚ
deriving DecidableEq, Inhabited

structure OverallIn where
  general_stats : GeneralStatsIn
  entries : List QueryRecord
deriving DecidableEq, Inhabited

/-- `earliest = parse(start) if not earliest else min(earliest, parse(start))`. -/
def pyMinOpt (earliest : Option DateTime) (d : DateTime) : DateTime :=
  match earliest with
  | none => d
  | some e0 => pyMinDT e0 d

/-- `latest = parse(end) if not latest else max(latest, parse(end))`. -/
def pyMaxOpt (latest : Option DateTime) (d : DateTime) : DateTime :=
  match latest with
  | none => d
  | some l0 => pyMaxDT l0 d

/-- The aggregation loop of `main`: earliest/latest fold, duration sum,
entry concatenation. -/
def aggAux : List BatchSummary → Option DateTime → Option DateTime → ℚ →
    List QueryRecord → Except PyErr OverallIn
  | [], earliest, latest, tot, acc =>
    .ok ⟨⟨earliest.map isoformat, latest.map isoformat, tot⟩, acc⟩
  | r :: rest, earliest, latest, tot, acc =>
    match _parse_iso r.run_start with
    | .error e => .error e
    | .ok d =>
      match _parse_iso r.run_end with
      | .error e => .error e
      | .ok d2 =>
        aggAux rest (some (pyMinOpt earliest d)) (some (pyMaxOpt latest d2))
          (tot + r.run_duration_seconds) (acc ++ r.entries)

/-- Fold a list of parsed batch summaries into the combined summary. -/
def aggregateRuns (runs : List BatchSummary) : Except PyErr OverallIn :=
  aggAux runs none none 0 []

/-- The synthetic summary row prepended by `get_general_stats`; its
loosely-typed fields keep the value kinds the source writes into the
shared dict shape. -/
structure GeneralRow where
  query_name : String
  sources : String
  start : String
  end_ : String
  duration_seconds : ℚ
  http_requests : Option Nat
  produced_results : Nat
  results_count : Nat
  error : Nat
deriving DecidableEq, Inhabited

/-- An emitted summary entry: the synthetic general row or a real
query record. -/
inductive Row where
  | general (g : GeneralRow)
  | query (q : QueryRecord)
deriving DecidableEq, Inhabited

structure OverallOut where
  general_stats : GeneralStatsIn
  entries : List Row
deriving DecidableEq, Inhabited

/-- `os.path.normpath` restricted to trailing-slash removal (the only
normalisation exercised here). -/
def normpathLite (s : String) : String :=
  let t : String := ⟨(s.data.reverse.dropWhile (· == '/')).reverse⟩
  if t = "" then (if s = "" then "." else "/") else t

/-- `os.path.basename(os.path.normpath(str(input_dirc)))`. -/
def generalRowName (d : String) : String :=
  basenameStr (normpathLite d)

/-- `get_general_stats`: aggregate counts over the collected real
records, then insert the synthetic row at index 0. -/
def get_general_stats (summary : OverallIn) (input_dirc : String) :
    Except PyErr OverallOut :=
  match summary.general_stats.run_start with
  | none => .error .noneTypeError
  | some rs =>
    match _parse_iso rs with
    | .error e => .error e
    | .ok runStart =>
      match summary.general_stats.run_end with
      | none => .error .noneTypeError
      | some rEnd =>
        match _parse_iso rEnd with
        | .error e => .error e
        | .ok runEnd =>
          let entries := summary.entries
          let numWithNumResults := (entries.filter (fun e => decide (0 < e.results_count))).length
          let numWithResults := (entries.filter (fun e => e.produced_results)).length
          let numErrors := (entries.filter (fun e => !e.produced_results)).length
          let generalRow : GeneralRow :=
            ⟨generalRowName input_dirc, "None", isoformat runStart, isoformat runEnd,
             summary.general_stats.run_duration_seconds, none,
             numWithResults, numWithNumResults, numErrors⟩
          .ok ⟨summary.general_stats, .general generalRow :: entries.map .query⟩

/-- `main` after parsing: aggregate all summaries then prepend the
general row. -/
def runMainAggregation (runs : List BatchSummary) (input_dir : String) :
    Except PyErr OverallOut :=
  match aggregateRuns runs with
  | .error e => .error e
  | .ok s => get_general_stats s input_dir

/-- Start timestamps of the runs as the aggregation loop parses them. -/
def parsedStarts (runs : List BatchSummary) : List DateTime :=
  runs.filterMap (fun r => (_parse_iso r.run_start).toOption)

/-- End timestamps of the runs as the aggregation loop parses them. -/
def parsedEnds (runs : List BatchSummary) : List DateTime :=
  runs.filterMap (fun r => (_parse_iso r.run_end).toOption)

/-- The earliest-timestamp fold of the aggregation loop in isolation. -/
def optFoldMin (e : Option DateTime) (ds : List DateTime) : Option DateTime :=
  ds.foldl (fun a d => some (pyMinOpt a d)) e

/-- The latest-timestamp fold of the aggregation loop in isolation. -/
def optFoldMax (l : Option DateTime) (ds : List DateTime) : Option DateTime :=
  ds.foldl (fun a d => some (pyMaxOpt a d)) l

/-- Errors classified as malformed-log structure failures (the two
`ValueError` raise sites of the boundary checks). -/
def isMalformedLogError : PyErr → Bool
  | .malformedStructure => true
  | .missingBoundaryTs => true
  | _ => false

/-- An empty directory: no auxiliary log exists for any name. -/
def fsEmpty : String → Option (List String) := fun _ => none

/-- A batch log whose first query section succeeds, with an auxiliary
log of three request lines, and whose second query section errors with
no auxiliary log present. -/
def c2log : String :=
  String.intercalate "\n\n"
    ["Run start 2025-01-01T00:00:00",
     "Executing: node eng http://a/sparql -f /q/001.rq\n" ++
       "Timestamp (start): 2025-01-01T00:00:01\n" ++
       "Output: \x7b\"results\": \x7b\"bindings\": [\x7b\x7d]\x7d\x7d\n" ++
       "Timestamp (end): 2025-01-01T00:00:02",
     "Executing: node eng http://b/sparql -f /q/002.rq\n" ++
       "Timestamp (start): 2025-01-01T00:00:03\n" ++
       "Error executing command for /q/002.rq: boom\n" ++
       "Timestamp (end): 2025-01-01T00:00:04",
     "Run end 2025-01-01T00:00:05"]

/-- The directory of `c2log`: only the first query has an auxiliary
log. -/
def c2fs : String → Option (List String) := fun name =>
  if name = "001.rq.log" then
    some ["x INFO: Requesting a", "y INFO: Requesting b", "z INFO: Requesting c"]
  else none

/-- A batch log with one marker section that has timestamps but neither
payload nor error line. -/
def c4log : String :=
  String.intercalate "\n\n"
    ["Run start 2025-01-01T00:00:00",
     "Executing: node eng http://a/sparql -f /q/003.rq\n" ++
       "Timestamp (start): 2025-01-01T00:00:01\n" ++
       "Timestamp (end): 2025-01-01T00:00:02",
     "Run end 2025-01-01T00:00:03"]

/-- A batch log whose single marker section carries an error line but
no `-f` flag: the parser raises instead of emitting a record. -/
def c6badlog : String :=
  String.intercalate "\n\n"
    ["Run start 2025-01-01T00:00:00",
     "Executing: node noflag\nError executing command for q: boom",
     "Run end 2025-01-01T00:00:03"]

/-- A two-marker-section batch log on which the parser succeeds. -/
def c6log : String :=
  String.intercalate "\n\n"
    ["Run start 2025-01-01T00:00:00",
     "Executing: node -f /x/a.rq",
     "Executing: node -f /x/b.rq",
     "Run end 2025-01-01T00:05:00"]

/-- A query section whose payload holds an empty bindings list. -/
def c3sec : List Char :=
  ("Executing: node http://a/sparql -f /q/001.rq\n" ++
   "Timestamp (start): 2025-01-01T00:00:00\n" ++
   "Output: \x7b\"results\": \x7b\"bindings\": []\x7d\x7d\n" ++
   "Timestamp (end): 2025-01-01T00:00:10").data

/-- The record `c3sec` produces. -/
def c3rec : QueryRecord × Nat :=
  ((processSection fsEmpty c3sec 0).toOption).getD default

/-- A batch log whose boundary structure passes both checks but whose
first boundary timestamp carries seven fractional digits. -/
def c9log : String :=
  String.intercalate "\n\n"
    ["Run start 2025-01-01T00:00:00.1234567", "middle data",
     "Run end 2025-01-01T00:00:09"]

/-- A successful query record as parsed from a batch log. -/
def qrecSuccess : QueryRecord :=
  ⟨some "s.rq", [], "None", "None", none, 0, true, 1, some "None"⟩

/-- An errored query record as parsed from a batch log. -/
def qrecErrored : QueryRecord :=
  ⟨some "e.rq", [], "None", "None", none, 0, false, 0, some "Unknown Error"⟩

/-- Two batch runs of 10 and 20 seconds holding three successful and two
errored records in total, later run first. -/
def c5runs : List BatchSummary :=
  [⟨"2025-01-02T00:00:00", "2025-01-02T00:00:10", 10,
      [qrecSuccess, qrecSuccess, qrecErrored]⟩,
   ⟨"2025-01-01T00:00:00", "2025-01-01T00:00:20", 20, [qrecSuccess, qrecErrored]⟩]

/-- The overall summary aggregated from `c5runs`. -/
def c5out : OverallOut :=
  ((runMainAggregation c5runs "results").toOption).getD default

/-!  Helper lemmas about the deduplication worker. -/

theorem dedupKeepFirstAux_mem (x : String) :
    ∀ (l : List String) (seen : List String),
      x ∈ dedupKeepFirstAux seen l ↔ x ∈ l ∧ x ∉ seen := by
  intro l
  induction l with
  | nil => intro seen; simp [dedupKeepFirstAux]
  | cons u rest ih =>
    intro seen
    by_cases hu : u ∈ seen
    · rw [dedupKeepFirstAux, if_pos hu, ih]
      constructor
      · rintro ⟨hm, hn⟩
        exact ⟨List.mem_cons_of_mem _ hm, hn⟩
      · rintro ⟨hm, hn⟩
        rcases List.mem_cons.mp hm with h | h
        · exact absurd (h ▸ hu) hn
        · exact ⟨h, hn⟩
    · rw [dedupKeepFirstAux, if_neg hu]
      constructor
      · intro hm
        rcases List.mem_cons.mp hm with h | h
        · exact ⟨h ▸ List.mem_cons_self u rest, h ▸ hu⟩
        · rcases (ih (u :: seen)).mp h with ⟨h1, h2⟩
          refine ⟨List.mem_cons_of_mem _ h1, fun hx => h2 (List.mem_cons_of_mem _ hx)⟩
      · rintro ⟨hm, hn⟩
        rcases List.mem_cons.mp hm with h | h
        · exact h ▸ List.mem_cons_self _ _
        · by_cases hxu : x = u
          · exact hxu ▸ List.mem_cons_self _ _
          · exact List.mem_cons_of_mem _
              ((ih (u :: seen)).mpr ⟨h, fun hx => (List.mem_cons.mp hx).elim hxu hn⟩)

theorem dedupKeepFirstAux_nodup :
    ∀ (l : List String) (seen : List String), (dedupKeepFirstAux seen l).Nodup := by
  intro l
  induction l with
  | nil => intro seen; simp [dedupKeepFirstAux]
  | cons u rest ih =>
    intro seen
    by_cases hu : u ∈ seen
    · rw [dedupKeepFirstAux, if_pos hu]; exact ih seen
    · rw [dedupKeepFirstAux, if_neg hu]
      refine List.nodup_cons.mpr ⟨fun hm => ?_, ih (u :: seen)⟩
      exact ((dedupKeepFirstAux_mem u rest (u :: seen)).mp hm).2 (List.mem_cons_self _ _)

theorem dedupKeepFirstAux_sublist :
    ∀ (l : List String) (seen : List String), (dedupKeepFirstAux seen l).Sublist l := by
  intro l
  induction l with
  | nil => intro seen; simp [dedupKeepFirstAux]
  | cons u rest ih =>
    intro seen
    by_cases hu : u ∈ seen
    · rw [dedupKeepFirstAux, if_pos hu]
      exact List.sublist_cons_of_sublist u (ih seen)
    · rw [dedupKeepFirstAux, if_neg hu]
      exact (ih (u :: seen)).cons₂ u

/-!  Helper lemmas about slash stripping. -/

theorem isPrefixOf_slash_dropWhile (l : List Char) :
    ['/'].isPrefixOf (l.dropWhile (· == '/')) = false := by
  induction l with
  | nil => rfl
  | cons c t ih =>
    rw [List.dropWhile_cons]
    by_cases hc : (c == '/') = true
    · rw [if_pos hc]; exact ih
    · rw [if_neg hc]
      have hne : c ≠ '/' := fun h => hc (by simp [h])
      simp [List.isPrefixOf, beq_iff_eq, hne.symm]

theorem rstripSlash_no_trailing (v : String) :
    strEndsWith (rstripSlash v) "/" = false := by
  have hdata : (rstripSlash v).data = (v.data.reverse.dropWhile (· == '/')).reverse := rfl
  rw [strEndsWith, hdata]
  show (("/".data).isSuffixOf ((v.data.reverse.dropWhile (· == '/')).reverse)) = false
  rw [List.isSuffixOf]
  simp only [List.reverse_reverse]
  exact isPrefixOf_slash_dropWhile v.data.reverse

/-!  Structure of a successfully processed section. -/

theorem sectionHttpError_true_fields (fs : String → Option (List String))
    (sec : List Char) (http_count : Nat) (he : Nat × Option String)
    (hok : sectionHttpError fs sec true http_count = .ok he) :
    he.2 = some "None" := by
  unfold sectionHttpError at hok
  simp only [if_true] at hok
  rcases hq : sectionQueryName sec with _ | qn
  · rw [hq] at hok; exact absurd hok (by simp)
  · rw [hq] at hok
    simp only [Except.ok.injEq] at hok
    rw [← hok]

theorem processSection_ok_fields (fs : String → Option (List String)) (sec : List Char)
    (http_count : Nat) (r : QueryRecord) (http2 : Nat)
    (hok : processSection fs sec http_count = .ok (r, http2)) :
    r.query_name = sectionQueryName sec ∧
    r.sources = sectionSources sec ∧
    r.produced_results = (sectionPayload sec).1 ∧
    r.results_count = (if (sectionPayload sec).1 then (sectionPayload sec).2 else 0) ∧
    r.http_requests = http2 ∧
    ∃ he, sectionHttpError fs sec (sectionPayload sec).1 http_count = .ok he ∧
      r.error = he.2 ∧ http2 = he.1 := by
  unfold processSection at hok
  rcases h1 : parseOptTs (searchTs tsStartLabel sec) with e | st
  · rw [h1] at hok; exact absurd hok (by simp)
  · rw [h1] at hok
    rcases h2 : parseOptTs (searchTs tsEndLabel sec) with e | et
    · rw [h2] at hok; exact absurd hok (by simp)
    · rw [h2] at hok
      rcases h3 : sectionHttpError fs sec (sectionPayload sec).1 http_count with e | he
      · rw [h3] at hok; exact absurd hok (by simp)
      · rw [h3] at hok
        simp only [Except.ok.injEq, Prod.mk.injEq] at hok
        obtain ⟨hr, hh⟩ := hok
        subst hh
        rw [← hr]
        exact ⟨rfl, rfl, rfl, rfl, rfl, he, rfl, rfl, rfl⟩

/-- Claim C1, counterexample: an auxiliary log whose text contains both
the generic `fetch failed` substring and the more specific FATAL-error
substring (which is earlier in the fixed pattern list) is classified as
the generic `fetch failed` category when the generic substring appears
on an earlier line, because the scan is line by line and the first line
containing any recognised pattern decides. -/
theorem c1_counterexample :
    strContains ("sim fetch failed now" ++ "\n" ++
        "FATAL ERROR: Reached heap limit Allocation failed")
      "FATAL ERROR: Reached heap limit Allocation failed" = true ∧
    strContains ("sim fetch failed now" ++ "\n" ++
        "FATAL ERROR: Reached heap limit Allocation failed") "fetch failed" = true ∧
    (getLogDataFromFileOrZipped true
        ["sim fetch failed now",
         "FATAL ERROR: Reached heap limit Allocation failed"]).2 = some "fetch failed" ∧
    ("fetch failed" : String) ≠ "FATAL ERROR: Reached heap limit Allocation failed" :=
  ⟨by decide, by decide, by rfl, by decide⟩

/-- Claim C1, amended: within a single log line that contains both the
generic `fetch failed` substring and the specific FATAL-error substring,
the classifier picks the specific category, because the fixed pattern
list is scanned in order within each line. -/
theorem c1_line_order_specific_wins (line : String)
    (h1 : strContains line "FATAL ERROR: Reached heap limit Allocation failed" = true)
    (h2 : strContains line "fetch failed" = true) :
    (getLogDataFromFileOrZipped true [line]).2 =
      some "FATAL ERROR: Reached heap limit Allocation failed" := by
  have hne : ¬ (line = "") := by
    intro h
    rw [h] at h1
    exact absurd h1 (by decide)
  have hfind : ERROR_PATTERNS.find? (fun pat => strContains line pat) =
      some "FATAL ERROR: Reached heap limit Allocation failed" := by
    rw [ERROR_PATTERNS]
    exact List.find?_cons_of_pos _ h1
  unfold getLogDataFromFileOrZipped glScanLine
  simp only [List.foldl_cons, List.foldl_nil, Option.isNone_none, Bool.and_true, if_true,
    Bool.not_true, Bool.false_eq_true, if_false, hfind, if_neg hne]

/-- Witness for the amended claim C1 at a concrete line containing both
substrings. -/
theorem c1_line_order_witness :
    strContains "a FATAL ERROR: Reached heap limit Allocation failed after fetch failed"
      "FATAL ERROR: Reached heap limit Allocation failed" = true ∧
    strContains "a FATAL ERROR: Reached heap limit Allocation failed after fetch failed"
      "fetch failed" = true ∧
    (getLogDataFromFileOrZipped true
        ["a FATAL ERROR: Reached heap limit Allocation failed after fetch failed"]).2 =
      some "FATAL ERROR: Reached heap limit Allocation failed" :=
  ⟨by decide, by decide,
    c1_line_order_specific_wins
      "a FATAL ERROR: Reached heap limit Allocation failed after fetch failed"
      (by decide) (by decide)⟩

/-- Claim C7: the source list of every emitted QueryRecord is the
first-seen-order deduplication of the URL tokens found before the `-f`
flag of the execution line: it equals those tokens with duplicates
removed (no duplicates, a subsequence of the token list, and containing
every token); on the token sequence of the claim it yields exactly the
two distinct URLs. -/
theorem c7_source_dedup :
    (∀ (fs : String → Option (List String)) (sec : List Char) (http_count : Nat)
        (r : QueryRecord) (http2 : Nat),
        processSection fs sec http_count = .ok (r, http2) → r.sources = sectionSources sec) ∧
    (∀ sec : List Char, (sectionSources sec).Nodup) ∧
    (∀ sec : List Char, (sectionSources sec).Sublist (sectionUrlTokens sec)) ∧
    (∀ (sec : List Char) (u : String), u ∈ sectionUrlTokens sec → u ∈ sectionSources sec) ∧
    sectionSources
        "Executing: node x http://a/sparql http://a/sparql http://b/sparql -f q.rq".data =
      ["http://a/sparql", "http://b/sparql"] := by
  refine ⟨?_, ?_, ?_, ?_, by rfl⟩
  · intro fs sec http_count r http2 hok
    exact (processSection_ok_fields fs sec http_count r http2 hok).2.1
  · intro sec
    exact dedupKeepFirstAux_nodup _ _
  · intro sec
    exact dedupKeepFirstAux_sublist _ _
  · intro sec u hu
    exact (dedupKeepFirstAux_mem u _ []).mpr ⟨hu, by simp⟩

/-- Witness for claim C7 at a concrete execution line. -/
theorem c7_witness :
    "http://b/sparql" ∈ sectionSources
        "Executing: node x http://a/sparql http://a/sparql http://b/sparql -f q.rq".data ∧
    (sectionSources
        "Executing: node x http://a/sparql http://a/sparql http://b/sparql -f q.rq".data).Nodup :=
  ⟨c7_source_dedup.2.2.2.1
      "Executing: node x http://a/sparql http://a/sparql http://b/sparql -f q.rq".data
      "http://b/sparql" (by decide),
   c7_source_dedup.2.1 _⟩

/-- Claim C10 (implicit): trailing slashes are stripped from every URL
token before deduplication, so no emitted source ever ends with `/`,
and two tokens differing only by a trailing slash collapse to one
entry. -/
theorem c10_trailing_slash :
    (∀ (sec : List Char) (u : String), u ∈ sectionSources sec → strEndsWith u "/" = false) ∧
    sectionSources "Executing: node x http://a/sparql/ http://a/sparql -f q.rq".data =
      ["http://a/sparql"] := by
  refine ⟨?_, by rfl⟩
  intro sec u hu
  have hmem : u ∈ sectionUrlTokens sec :=
    ((dedupKeepFirstAux_mem u _ []).mp hu).1
  unfold sectionUrlTokens at hmem
  rcases List.mem_map.mp hmem with ⟨v, _, hv⟩
  rw [← hv]
  exact rstripSlash_no_trailing v

/-- Claim C8, counterexample: a zip archive with no file members falls
in the "otherwise" case of the claim, yet reading fails with the
missing-file error rather than the ambiguity error. -/
theorem c8_counterexample :
    _read_text_maybe_zipped (.zipArchive []) none = .error .zipNoFiles ∧
    PyErr.zipNoFiles ≠ PyErr.zipAmbiguous ∧ zipNames [] = [] :=
  ⟨rfl, by decide, rfl⟩

/-- Claim C8, amended: an archive with exactly one file member, or
exactly one `.txt` member among several, is read and yields that
member's content; with at least one member and no such unique candidate
reading fails with the ambiguity error; with no file member at all it
fails with the missing-file error instead. -/
theorem c8_archive_selection (members : List (String × String)) :
    ((zipNames members).length = 1 →
      _read_text_maybe_zipped (.zipArchive members) none =
        .ok (zipOpen members ((zipNames members).headD ""))) ∧
    (2 ≤ (zipNames members).length →
      ((zipNames members).filter (fun n => strEndsWith (strLower n) ".txt")).length = 1 →
      _read_text_maybe_zipped (.zipArchive members) none =
        .ok (zipOpen members
          (((zipNames members).filter (fun n => strEndsWith (strLower n) ".txt")).headD ""))) ∧
    (2 ≤ (zipNames members).length →
      ((zipNames members).filter (fun n => strEndsWith (strLower n) ".txt")).length ≠ 1 →
      _read_text_maybe_zipped (.zipArchive members) none = .error .zipAmbiguous) ∧
    ((zipNames members).length = 0 →
      _read_text_maybe_zipped (.zipArchive members) none = .error .zipNoFiles) := by
  have hred : _read_text_maybe_zipped (.zipArchive members) none =
      (if (zipNames members).isEmpty = true then .error .zipNoFiles
       else if ((zipNames members).filter
           (fun n => strEndsWith (strLower n) ".txt")).length = 1 then
         .ok (zipOpen members
           (((zipNames members).filter (fun n => strEndsWith (strLower n) ".txt")).headD ""))
       else if ((zipNames members).filter
             (fun n => strEndsWith (strLower n) ".txt")).length = 0 ∧
           (zipNames members).length = 1 then
         .ok (zipOpen members ((zipNames members).headD ""))
       else .error .zipAmbiguous) := rfl
  refine ⟨?_, ?_, ?_, ?_⟩
  · intro h1
    obtain ⟨n, hn⟩ := List.length_eq_one.mp h1
    rw [hred, hn]
    by_cases hp : strEndsWith (strLower n) ".txt" = true
    · simp [hp]
    · simp [hp]
  · intro h2 h1
    have hne : ¬ ((zipNames members).isEmpty = true) := by
      intro hh
      rw [List.isEmpty_iff.mp hh] at h2
      exact absurd h2 (by decide)
    rw [hred, if_neg hne, if_pos h1]
  · intro h2 hne1
    have hne : ¬ ((zipNames members).isEmpty = true) := by
      intro hh
      rw [List.isEmpty_iff.mp hh] at h2
      exact absurd h2 (by decide)
    have hlen : ¬ ((zipNames members).length = 1) := by
      intro hh
      rw [hh] at h2
      exact absurd h2 (by decide)
    rw [hred, if_neg hne, if_neg hne1, if_neg (fun hand => hlen hand.2)]
  · intro h0
    have he : (zipNames members).isEmpty = true := by
      rw [List.isEmpty_iff]
      exact List.length_eq_zero.mp h0
    rw [hred, if_pos he]

/-- Witness for the amended claim C8: the single-member archive of the
claim is read in full, and the two-text-member archive is rejected as
ambiguous. -/
theorem c8_archive_witness :
    (zipNames [("q1.log", "hello")]).length = 1 ∧
    _read_text_maybe_zipped (.zipArchive [("q1.log", "hello")]) none = .ok "hello" ∧
    2 ≤ (zipNames [("a.txt", "A"), ("b.txt", "B")]).length ∧
    ((zipNames [("a.txt", "A"), ("b.txt", "B")]).filter
        (fun n => strEndsWith (strLower n) ".txt")).length ≠ 1 ∧
    _read_text_maybe_zipped (.zipArchive [("a.txt", "A"), ("b.txt", "B")]) none =
      .error .zipAmbiguous := by
  refine ⟨by rfl, ?_, by decide, by decide, ?_⟩
  · exact (c8_archive_selection [("q1.log", "hello")]).1 (by rfl)
  · exact (c8_archive_selection [("a.txt", "A"), ("b.txt", "B")]).2.2.1 (by decide) (by decide)

/-!  Error shapes of the parser stages, used to separate structural
(malformed-log) failures from later ones. -/

theorem _parse_iso_error_shape (s : String) (e : PyErr)
    (h : _parse_iso s = .error e) : e = .badTimestamp s := by
  unfold _parse_iso at h
  rcases hs : strptimeIsoOpt s with _ | dt
  · rw [hs] at h
    simp only [Except.error.injEq] at h
    exact h.symm
  · rw [hs] at h
    exact absurd h (by simp)

theorem parseOptTs_error_shape (m : Option TsMatch) (e : PyErr)
    (h : parseOptTs m = .error e) : isMalformedLogError e = false := by
  rcases m with _ | tm
  · have h2 : (Except.ok none : Except PyErr (Option DateTime)) = .error e := h
    exact absurd h2 (fun hh => Except.noConfusion hh)
  · have h2 : Except.map some (_parse_iso tm.iso) = Except.error e := h
    rcases hp : _parse_iso tm.iso with e2 | d
    · rw [hp] at h2
      have h3 : (Except.error e2 : Except PyErr (Option DateTime)) = Except.error e := h2
      simp only [Except.error.injEq] at h3
      rw [← h3, _parse_iso_error_shape _ _ hp]
      rfl
    · rw [hp] at h2
      have h3 : (Except.ok (some d) : Except PyErr (Option DateTime)) = Except.error e := h2
      exact absurd h3 (fun hh => Except.noConfusion hh)

theorem sectionHttpError_error_shape (fs : String → Option (List String))
    (sec : List Char) (produced : Bool) (http_count : Nat) (e : PyErr)
    (h : sectionHttpError fs sec produced http_count = .error e) : e = .noneTypeError := by
  unfold sectionHttpError at h
  split at h
  · split at h
    · simp only [Except.error.injEq] at h
      exact h.symm
    · exact absurd h (by simp)
  · split at h
    · split at h
      · simp only [Except.error.injEq] at h
        exact h.symm
      · split at h
        · exact absurd h (by simp)
        · exact absurd h (by simp)
    · exact absurd h (by simp)

theorem processSection_error_shape (fs : String → Option (List String))
    (sec : List Char) (http_count : Nat) (e : PyErr)
    (h : processSection fs sec http_count = .error e) : isMalformedLogError e = false := by
  unfold processSection at h
  rcases h1 : parseOptTs (searchTs tsStartLabel sec) with e1 | st
  · rw [h1] at h
    simp only [Except.error.injEq] at h
    exact h ▸ parseOptTs_error_shape _ _ h1
  · rw [h1] at h
    rcases h2 : parseOptTs (searchTs tsEndLabel sec) with e2 | et
    · rw [h2] at h
      simp only [Except.error.injEq] at h
      exact h ▸ parseOptTs_error_shape _ _ h2
    · rw [h2] at h
      rcases h3 : sectionHttpError fs sec (sectionPayload sec).1 http_count with e3 | he
      · rw [h3] at h
        simp only [Except.error.injEq] at h
        rw [← h, sectionHttpError_error_shape _ _ _ _ _ h3]
        rfl
      · rw [h3] at h
        exact absurd h (by simp)

theorem processSections_error_shape (fs : String → Option (List String)) :
    ∀ (secs : List (List Char)) (http_count : Nat) (e : PyErr),
      processSections fs secs http_count = .error e → isMalformedLogError e = false := by
  intro secs
  induction secs with
  | nil => intro hc e h; simp [processSections] at h
  | cons sec rest ih =>
    intro hc e h
    unfold processSections at h
    by_cases hm : execMarker.isPrefixOf sec = true
    · rw [if_pos hm] at h
      rcases h1 : processSection fs sec hc with e1 | rh
      · rw [h1] at h
        simp only [Except.error.injEq] at h
        exact h ▸ processSection_error_shape _ _ _ _ h1
      · rw [h1] at h
        have h5 : (match processSections fs rest rh.2 with
            | Except.error e => Except.error e
            | Except.ok rs => Except.ok (rh.1 :: rs.1, rs.2)) = Except.error e := h
        rcases h2 : processSections fs rest rh.2 with e2 | rs
        · rw [h2] at h5
          simp only [Except.error.injEq] at h5
          exact h5 ▸ ih _ _ h2
        · rw [h2] at h5
          exact absurd h5 (by simp)
    · rw [if_neg hm] at h
      exact ih _ _ h

set_option maxRecDepth 40000 in
/-- Claim C9, counterexample: the boundary checks pass on `c9log`
(three sections, timestamps found in the first and last), yet parsing
does not proceed — `_parse_iso` rejects the seven-digit fraction that
`ISO_RE` admits, and the parser fails with a non-malformed-log error. -/
theorem c9_counterexample :
    (splitBlocks (pyStrip c9log.data)).length = 3 ∧
    isoFindAll ((splitBlocks (pyStrip c9log.data)).headD []) ≠ [] ∧
    isoFindAll ((splitBlocks (pyStrip c9log.data)).getLastD []) ≠ [] ∧
    parse_batch_log fsEmpty c9log = .error (.badTimestamp "2025-01-01T00:00:00.1234567") ∧
    isMalformedLogError (.badTimestamp "2025-01-01T00:00:00.1234567") = false :=
  ⟨by rfl, by decide, by decide, by rfl, by rfl⟩

/-- Claim C9, amended: the parser fails with a malformed-log error
exactly when the log has fewer than three blank-line sections or no ISO
timestamp in the first or last section, and those failures propagate;
in every other case the structural checks pass, though parsing may
still fail later with a non-structural error. -/
theorem c9_structural_errors (fs : String → Option (List String)) (text : String) :
    ((splitBlocks (pyStrip text.data)).length < 3 →
      parse_batch_log fs text = .error .malformedStructure) ∧
    (¬ (splitBlocks (pyStrip text.data)).length < 3 →
      (isoFindAll ((splitBlocks (pyStrip text.data)).headD []) = [] ∨
        isoFindAll ((splitBlocks (pyStrip text.data)).getLastD []) = []) →
      parse_batch_log fs text = .error .missingBoundaryTs) ∧
    (∀ e, parse_batch_log fs text = .error e → isMalformedLogError e = true →
      (splitBlocks (pyStrip text.data)).length < 3 ∨
      isoFindAll ((splitBlocks (pyStrip text.data)).headD []) = [] ∨
      isoFindAll ((splitBlocks (pyStrip text.data)).getLastD []) = []) := by
  refine ⟨?_, ?_, ?_⟩
  · intro hlt
    unfold parse_batch_log
    rw [if_pos hlt]
  · intro hge hts
    unfold parse_batch_log
    rw [if_neg hge, if_pos ?_]
    rcases hts with h | h
    · exact Or.inl (List.isEmpty_iff.mpr h)
    · exact Or.inr (List.isEmpty_iff.mpr h)
  · intro e h hm
    by_contra hcon
    push_neg at hcon
    obtain ⟨hge, hts1, hts2⟩ := hcon
    have hcond : ¬ ((isoFindAll ((splitBlocks (pyStrip text.data)).headD [])).isEmpty = true ∨
        (isoFindAll ((splitBlocks (pyStrip text.data)).getLastD [])).isEmpty = true) := by
      rintro (hh | hh)
      · exact hts1 (List.isEmpty_iff.mp hh)
      · exact hts2 (List.isEmpty_iff.mp hh)
    unfold parse_batch_log at h
    rw [if_neg (not_lt.mpr hge), if_neg hcond] at h
    rcases hp1 : _parse_iso
        ((isoFindAll ((splitBlocks (pyStrip text.data)).headD [])).headD "") with e1 | d1
    · rw [hp1] at h
      simp only [Except.error.injEq] at h
      rw [← h, _parse_iso_error_shape _ _ hp1] at hm
      exact absurd hm (by simp [isMalformedLogError])
    · rw [hp1] at h
      rcases hp2 : _parse_iso
          ((isoFindAll ((splitBlocks (pyStrip text.data)).getLastD [])).getLastD "") with e2 | d2
      · rw [hp2] at h
        simp only [Except.error.injEq] at h
        rw [← h, _parse_iso_error_shape _ _ hp2] at hm
        exact absurd hm (by simp [isMalformedLogError])
      · rw [hp2] at h
        rcases hp3 : processSections fs (splitSections (pyStrip text.data)) 0 with e3 | rs
        · rw [hp3] at h
          simp only [Except.error.injEq] at h
          rw [← h, processSections_error_shape fs _ _ _ hp3] at hm
          exact absurd hm (by simp)
        · rw [hp3] at h
          exact absurd h (by simp)

set_option maxRecDepth 40000 in
/-- Witness for the amended claim C9: a one-section log triggers the
malformed-structure error through the first clause. -/
theorem c9_structural_witness :
    parse_batch_log fsEmpty "tiny" = .error .malformedStructure :=
  (c9_structural_errors fsEmpty "tiny").1 (by decide)

/-- Claim C3: whenever a query section's inline `Output:` payload
decodes as structured data with a list-valued `bindings` field, the
emitted record has produced-results true, result-count equal to the
length of that list (zero included), and error classification
`"None"`. -/
theorem c3_inline_payload_success (fs : String → Option (List String))
    (sec : List Char) (http_count : Nat) (r : QueryRecord) (http2 : Nat)
    (js : List Char) (j : Json) (bs : List Json)
    (hfind : findOutputJson (sectionMid sec) = some js)
    (hload : jsonLoads (truncAtLastBrace js) = some j)
    (hbind : getBindings j = some bs)
    (hok : processSection fs sec http_count = .ok (r, http2)) :
    r.produced_results = true ∧ r.results_count = bs.length ∧ r.error = some "None" := by
  have hpay : sectionPayload sec = (true, bs.length) := by
    unfold sectionPayload
    simp only [hfind, hload, hbind]
    simp
  obtain ⟨_, _, hp, hrc, _, heV, hheq, herr, _⟩ :=
    processSection_ok_fields fs sec http_count r http2 hok
  have hp1 : (sectionPayload sec).1 = true := by rw [hpay]
  refine ⟨hp.trans hp1, ?_, ?_⟩
  · rw [hrc, hpay]
    simp
  · rw [hp1] at hheq
    exact herr.trans (sectionHttpError_true_fields fs sec http_count heV hheq)

set_option maxRecDepth 40000 in
/-- Witness for claim C3 at a section whose bindings list is empty:
produced-results true, result-count 0, error `"None"`. -/
theorem c3_inline_payload_witness :
    processSection fsEmpty c3sec 0 = .ok c3rec ∧
    c3rec.1.produced_results = true ∧ c3rec.1.results_count = 0 ∧
    c3rec.1.error = some "None" := by
  have h := c3_inline_payload_success fsEmpty c3sec 0 c3rec.1 c3rec.2 _ _ _
    rfl rfl rfl (by rfl)
  exact ⟨by rfl, h.1, h.2.1, h.2.2⟩

/-- Extraction of the section-loop result from a successful parse. -/
theorem parse_batch_log_ok_entries (fs : String → Option (List String)) (text : String)
    (s : BatchSummary) (hok : parse_batch_log fs text = .ok s) :
    ∃ rs, processSections fs (splitSections (pyStrip text.data)) 0 = .ok rs ∧
      s.entries = rs.1 := by
  unfold parse_batch_log at hok
  by_cases hlt : (splitBlocks (pyStrip text.data)).length < 3
  · rw [if_pos hlt] at hok
    exact absurd hok (by simp)
  · rw [if_neg hlt] at hok
    by_cases hts : (isoFindAll ((splitBlocks (pyStrip text.data)).headD [])).isEmpty = true ∨
        (isoFindAll ((splitBlocks (pyStrip text.data)).getLastD [])).isEmpty = true
    · rw [if_pos hts] at hok
      exact absurd hok (by simp)
    · rw [if_neg hts] at hok
      rcases h1 : _parse_iso
          ((isoFindAll ((splitBlocks (pyStrip text.data)).headD [])).headD "") with e1 | d1
      · rw [h1] at hok
        exact absurd hok (by simp)
      · rw [h1] at hok
        rcases h2 : _parse_iso
            ((isoFindAll ((splitBlocks (pyStrip text.data)).getLastD [])).getLastD "") with e2 | d2
        · rw [h2] at hok
          exact absurd hok (by simp)
        · rw [h2] at hok
          rcases h3 : processSections fs (splitSections (pyStrip text.data)) 0 with e3 | rs
          · rw [h3] at hok
            exact absurd hok (by simp)
          · rw [h3] at hok
            simp only [Except.ok.injEq] at hok
            exact ⟨rs, rfl, by rw [← hok]⟩

/-- Per-record invariant established by the section loop. -/
theorem processSections_invariant (fs : String → Option (List String)) :
    ∀ (secs : List (List Char)) (hc : Nat) (rs : List QueryRecord × Nat),
      processSections fs secs hc = .ok rs →
      ∀ r ∈ rs.1,
        (r.produced_results = true → r.error = some "None") ∧
        (r.produced_results = false → r.results_count = 0) := by
  intro secs
  induction secs with
  | nil =>
    intro hc rs h r hr
    have h2 : (Except.ok (([] : List QueryRecord), hc) :
        Except PyErr (List QueryRecord × Nat)) = .ok rs := h
    simp only [Except.ok.injEq] at h2
    rw [← h2] at hr
    simp at hr
  | cons sec rest ih =>
    intro hc rs h r hr
    unfold processSections at h
    by_cases hm : execMarker.isPrefixOf sec = true
    · rw [if_pos hm] at h
      rcases h1 : processSection fs sec hc with e1 | rh
      · rw [h1] at h
        exact absurd h (by simp)
      · rw [h1] at h
        have h5 : (match processSections fs rest rh.2 with
            | Except.error e => Except.error e
            | Except.ok rs2 => Except.ok (rh.1 :: rs2.1, rs2.2)) = Except.ok rs := h
        rcases h2 : processSections fs rest rh.2 with e2 | rs2
        · rw [h2] at h5
          exact absurd h5 (by simp)
        · rw [h2] at h5
          simp only [Except.ok.injEq] at h5
          rw [← h5] at hr
          rcases List.mem_cons.mp hr with hr1 | hr2
          · obtain ⟨_, _, hp, hrc, _, heV, hheq, herr, _⟩ :=
              processSection_ok_fields fs sec hc rh.1 rh.2 h1
            subst hr1
            constructor
            · intro hprod
              have hsp : (sectionPayload sec).1 = true := hp.symm.trans hprod
              rw [hsp] at hheq
              exact herr.trans (sectionHttpError_true_fields fs sec hc heV hheq)
            · intro hprod
              have hsp : (sectionPayload sec).1 = false := hp.symm.trans hprod
              rw [hrc, hsp]
              simp
          · exact ih _ _ h2 r hr2
    · rw [if_neg hm] at h
      exact ih _ _ h r hr

/-- Query names of the emitted records, in order, are those of the
marker sections. -/
theorem processSections_names (fs : String → Option (List String)) :
    ∀ (secs : List (List Char)) (hc : Nat) (rs : List QueryRecord × Nat),
      processSections fs secs hc = .ok rs →
      rs.1.map (fun r => r.query_name) =
        (secs.filter (fun sec => execMarker.isPrefixOf sec)).map sectionQueryName := by
  intro secs
  induction secs with
  | nil =>
    intro hc rs h
    have h2 : (Except.ok (([] : List QueryRecord), hc) :
        Except PyErr (List QueryRecord × Nat)) = .ok rs := h
    simp only [Except.ok.injEq] at h2
    rw [← h2]
    simp
  | cons sec rest ih =>
    intro hc rs h
    unfold processSections at h
    by_cases hm : execMarker.isPrefixOf sec = true
    · rw [if_pos hm] at h
      rcases h1 : processSection fs sec hc with e1 | rh
      · rw [h1] at h
        exact absurd h (by simp)
      · rw [h1] at h
        have h5 : (match processSections fs rest rh.2 with
            | Except.error e => Except.error e
            | Except.ok rs2 => Except.ok (rh.1 :: rs2.1, rs2.2)) = Except.ok rs := h
        rcases h2 : processSections fs rest rh.2 with e2 | rs2
        · rw [h2] at h5
          exact absurd h5 (by simp)
        · rw [h2] at h5
          simp only [Except.ok.injEq] at h5
          rw [← h5]
          rw [List.filter_cons_of_pos hm]
          simp only [List.map_cons]
          rw [(processSection_ok_fields fs sec hc rh.1 rh.2 h1).1, ih _ _ h2]
    · rw [if_neg hm] at h
      rw [List.filter_cons_of_neg (by simpa using hm)]
      exact ih _ _ h

set_option maxRecDepth 40000 in
/-- Claim C2 at a failing input: the second section has no inline
payload and no auxiliary log, and is classified `Unknown Error` as the
claim says — but its HTTP-request count is 3, carried over from the
first section's auxiliary log, because `http_count` is initialised once
outside the section loop; the claim (and the spec's independence of
records) requires null/0. -/
theorem c2_stale_http_evaluation :
    (parse_batch_log c2fs c2log).map
        (fun s => s.entries.map (fun r => (r.query_name, r.http_requests, r.error))) =
      .ok [(some "001.rq", 3, some "None"), (some "002.rq", 3, some "Unknown Error")] ∧
    c2fs "002.rq.log" = none ∧ c2fs "002.rq.log.zip" = none :=
  ⟨by rfl, by rfl, by rfl⟩

set_option maxRecDepth 40000 in
/-- Claim C4, counterexample: a section with no payload and no error
line yields a record with produced-results false whose error field is
absent (`None`), not one of the fixed error categories. -/
theorem c4_counterexample :
    (parse_batch_log fsEmpty c4log).map
        (fun s => s.entries.map (fun r => (r.produced_results, r.results_count, r.error))) =
      .ok [(false, 0, none)] := by rfl

/-- Claim C4, amended: every emitted QueryRecord with produced-results
true has error classification `"None"` and result-count at least zero;
every one with produced-results false has result-count 0 (its error
field may be absent or free-form text rather than one of the fixed
categories). -/
theorem c4_record_invariant (fs : String → Option (List String)) (text : String)
    (s : BatchSummary) (hok : parse_batch_log fs text = .ok s) :
    ∀ r ∈ s.entries,
      (r.produced_results = true → r.error = some "None" ∧ 0 ≤ r.results_count) ∧
      (r.produced_results = false → r.results_count = 0) := by
  obtain ⟨rs, h3, hent⟩ := parse_batch_log_ok_entries fs text s hok
  intro r hr
  rw [hent] at hr
  have h := processSections_invariant fs _ _ _ h3 r hr
  exact ⟨fun hp => ⟨h.1 hp, Nat.zero_le _⟩, h.2⟩

set_option maxRecDepth 40000 in
/-- Witness for the amended claim C4 on a concrete parsed log. -/
theorem c4_record_invariant_witness :
    ∃ s, parse_batch_log fsEmpty c4log = .ok s ∧
      ∀ r ∈ s.entries,
        (r.produced_results = true → r.error = some "None" ∧ 0 ≤ r.results_count) ∧
        (r.produced_results = false → r.results_count = 0) :=
  ⟨_, rfl, c4_record_invariant fsEmpty c4log _ rfl⟩

set_option maxRecDepth 40000 in
/-- Claim C6, counterexample: this well-bounded log contains exactly one
marker section, yet the parser returns no records at all — it fails
with a `TypeError` (`query_name + ".log"` on a missing query name). -/
theorem c6_counterexample :
    parse_batch_log fsEmpty c6badlog = .error .noneTypeError ∧
    ((splitSections (pyStrip c6badlog.data)).filter
        (fun sec => execMarker.isPrefixOf sec)).length = 1 :=
  ⟨by rfl, by rfl⟩

/-- Claim C6, amended: whenever the parser completes without error on a
log with well-formed boundary sections, it returns exactly one record
per marker section, in original section order (witnessed by the ordered
query-name lists agreeing); non-marker sections are discarded and zero
marker sections yield an empty record list. -/
theorem c6_section_count (fs : String → Option (List String)) (text : String)
    (s : BatchSummary) (hok : parse_batch_log fs text = .ok s) :
    s.entries.map (fun r => r.query_name) =
      ((splitSections (pyStrip text.data)).filter
          (fun sec => execMarker.isPrefixOf sec)).map sectionQueryName ∧
    s.entries.length =
      ((splitSections (pyStrip text.data)).filter
          (fun sec => execMarker.isPrefixOf sec)).length := by
  obtain ⟨rs, h3, hent⟩ := parse_batch_log_ok_entries fs text s hok
  have hnames := processSections_names fs _ _ _ h3
  constructor
  · rw [hent]
    exact hnames
  · rw [hent]
    calc rs.1.length = (rs.1.map (fun r => r.query_name)).length :=
          (List.length_map _ _).symm
    _ = _ := by rw [hnames]; exact List.length_map _ _

set_option maxRecDepth 40000 in
/-- Witness for the amended claim C6: two marker sections, two records,
names in section order. -/
theorem c6_section_count_witness :
    ∃ s, parse_batch_log fsEmpty c6log = .ok s ∧
      s.entries.map (fun r => r.query_name) = [some "a.rq", some "b.rq"] ∧
      s.entries.length = 2 := by
  refine ⟨_, rfl, ?_, ?_⟩
  · exact (c6_section_count fsEmpty c6log _ rfl).1.trans (by rfl)
  · exact (c6_section_count fsEmpty c6log _ rfl).2.trans (by rfl)

/-!  Order facts about the Python `min`/`max` folds. -/

theorem pyMinDT_le_left (a d : DateTime) : toKey (pyMinDT a d) ≤ toKey a := by
  unfold pyMinDT
  split
  · exact Nat.le_of_lt (by assumption)
  · exact Nat.le_refl _

theorem pyMinDT_le_right (a d : DateTime) : toKey (pyMinDT a d) ≤ toKey d := by
  unfold pyMinDT
  split
  · exact Nat.le_refl _
  · exact Nat.le_of_not_lt (by assumption)

theorem pyMinDT_eq_or (a d : DateTime) : pyMinDT a d = a ∨ pyMinDT a d = d := by
  unfold pyMinDT
  split
  · exact Or.inr rfl
  · exact Or.inl rfl

theorem pyMaxDT_ge_left (a d : DateTime) : toKey a ≤ toKey (pyMaxDT a d) := by
  unfold pyMaxDT
  split
  · exact Nat.le_of_lt (by assumption)
  · exact Nat.le_refl _

theorem pyMaxDT_ge_right (a d : DateTime) : toKey d ≤ toKey (pyMaxDT a d) := by
  unfold pyMaxDT
  split
  · exact Nat.le_refl _
  · exact Nat.le_of_not_lt (by assumption)

theorem pyMaxDT_eq_or (a d : DateTime) : pyMaxDT a d = a ∨ pyMaxDT a d = d := by
  unfold pyMaxDT
  split
  · exact Or.inr rfl
  · exact Or.inl rfl

theorem optFoldMin_some_spec :
    ∀ (ds : List DateTime) (a : DateTime),
      ∃ m, optFoldMin (some a) ds = some m ∧ (m = a ∨ m ∈ ds) ∧
        toKey m ≤ toKey a ∧ ∀ d ∈ ds, toKey m ≤ toKey d := by
  intro ds
  induction ds with
  | nil =>
    intro a
    exact ⟨a, rfl, Or.inl rfl, Nat.le_refl _, by simp⟩
  | cons d rest ih =>
    intro a
    obtain ⟨m, hm, hmem, hle, hall⟩ := ih (pyMinDT a d)
    refine ⟨m, hm, ?_, ?_, ?_⟩
    · rcases hmem with h | h
      · rcases pyMinDT_eq_or a d with h2 | h2
        · exact Or.inl (h.trans h2)
        · exact Or.inr (by rw [h, h2]; exact List.mem_cons_self _ _)
      · exact Or.inr (List.mem_cons_of_mem _ h)
    · exact le_trans hle (pyMinDT_le_left a d)
    · intro x hx
      rcases List.mem_cons.mp hx with h | h
      · rw [h]
        exact le_trans hle (pyMinDT_le_right a d)
      · exact hall x h

theorem optFoldMax_some_spec :
    ∀ (ds : List DateTime) (a : DateTime),
      ∃ m, optFoldMax (some a) ds = some m ∧ (m = a ∨ m ∈ ds) ∧
        toKey a ≤ toKey m ∧ ∀ d ∈ ds, toKey d ≤ toKey m := by
  intro ds
  induction ds with
  | nil =>
    intro a
    exact ⟨a, rfl, Or.inl rfl, Nat.le_refl _, by simp⟩
  | cons d rest ih =>
    intro a
    obtain ⟨m, hm, hmem, hle, hall⟩ := ih (pyMaxDT a d)
    refine ⟨m, hm, ?_, ?_, ?_⟩
    · rcases hmem with h | h
      · rcases pyMaxDT_eq_or a d with h2 | h2
        · exact Or.inl (h.trans h2)
        · exact Or.inr (by rw [h, h2]; exact List.mem_cons_self _ _)
      · exact Or.inr (List.mem_cons_of_mem _ h)
    · exact le_trans (pyMaxDT_ge_left a d) hle
    · intro x hx
      rcases List.mem_cons.mp hx with h | h
      · rw [h]
        exact le_trans (pyMaxDT_ge_right a d) hle
      · exact hall x h

/-- Invariants of the aggregation loop. -/
theorem aggAux_spec :
    ∀ (runs : List BatchSummary) (earliest latest : Option DateTime) (tot : ℚ)
      (acc : List QueryRecord) (s : OverallIn),
      aggAux runs earliest latest tot acc = .ok s →
      s.general_stats.run_duration_seconds =
        tot + (runs.map (fun r => r.run_duration_seconds)).sum ∧
      s.entries = acc ++ runs.bind (fun r => r.entries) ∧
      s.general_stats.run_start = (optFoldMin earliest (parsedStarts runs)).map isoformat ∧
      s.general_stats.run_end = (optFoldMax latest (parsedEnds runs)).map isoformat := by
  intro runs
  induction runs with
  | nil =>
    intro e l tot acc s h
    have h2 : (Except.ok (⟨⟨e.map isoformat, l.map isoformat, tot⟩, acc⟩ : OverallIn) :
        Except PyErr OverallIn) = .ok s := h
    simp only [Except.ok.injEq] at h2
    rw [← h2]
    exact ⟨by simp, by simp, rfl, rfl⟩
  | cons r rest ih =>
    intro e l tot acc s h
    unfold aggAux at h
    rcases h1 : _parse_iso r.run_start with e1 | d1
    · rw [h1] at h
      exact absurd h (by simp)
    · rw [h1] at h
      have h5 : (match _parse_iso r.run_end with
          | Except.error e2 => Except.error e2
          | Except.ok d2 => aggAux rest (some (pyMinOpt e d1)) (some (pyMaxOpt l d2))
              (tot + r.run_duration_seconds) (acc ++ r.entries)) = Except.ok s := h
      rcases h2 : _parse_iso r.run_end with e2 | d2
      · rw [h2] at h5
        exact absurd h5 (by simp)
      · rw [h2] at h5
        obtain ⟨ha, hb, hc, hd⟩ := ih _ _ _ _ _ h5
        have hps : parsedStarts (r :: rest) = d1 :: parsedStarts rest := by
          simp [parsedStarts, List.filterMap_cons, h1, Except.toOption]
        have hpe : parsedEnds (r :: rest) = d2 :: parsedEnds rest := by
          simp [parsedEnds, List.filterMap_cons, h2, Except.toOption]
        refine ⟨?_, ?_, ?_, ?_⟩
        · rw [ha, List.map_cons, List.sum_cons]
          ring
        · rw [hb]
          simp [List.append_assoc]
        · rw [hc, hps]
          rfl
        · rw [hd, hpe]
          rfl

/-- Claim C5: for every aggregation that completes, the overall summary
has total duration equal to the sum of the runs' own durations, an
entries list whose length is the number of real records plus one, the
synthetic general record at index 0 with its counts computed from the
real records only, and earliest-start and latest-end timestamps that are
the minimum and maximum over all runs. -/
theorem c5_aggregation (runs : List BatchSummary) (input_dir : String) (out : OverallOut)
    (hok : runMainAggregation runs input_dir = .ok out) :
    out.general_stats.run_duration_seconds =
      (runs.map (fun r => r.run_duration_seconds)).sum ∧
    out.entries.length = (runs.bind (fun r => r.entries)).length + 1 ∧
    (∃ g, out.entries.head? = some (.general g) ∧
      g.duration_seconds = (runs.map (fun r => r.run_duration_seconds)).sum ∧
      g.produced_results =
        ((runs.bind (fun r => r.entries)).filter (fun e => e.produced_results)).length ∧
      g.error =
        ((runs.bind (fun r => r.entries)).filter (fun e => !e.produced_results)).length ∧
      g.results_count =
        ((runs.bind (fun r => r.entries)).filter
            (fun e => decide (0 < e.results_count))).length) ∧
    (∃ emin, emin ∈ parsedStarts runs ∧
      out.general_stats.run_start = some (isoformat emin) ∧
      ∀ d ∈ parsedStarts runs, toKey emin ≤ toKey d) ∧
    (∃ emax, emax ∈ parsedEnds runs ∧
      out.general_stats.run_end = some (isoformat emax) ∧
      ∀ d ∈ parsedEnds runs, toKey d ≤ toKey emax) := by
  unfold runMainAggregation at hok
  rcases hagg : aggregateRuns runs with e0 | sIn
  · rw [hagg] at hok
    exact absurd hok (by simp)
  · rw [hagg] at hok
    obtain ⟨hdur, hent, hstart, hend⟩ := aggAux_spec runs none none 0 [] sIn hagg
    rw [List.nil_append] at hent
    have hok1 : get_general_stats sIn input_dir = Except.ok out := hok
    unfold get_general_stats at hok1
    rcases hrs : sIn.general_stats.run_start with _ | rsStr
    · rw [hrs] at hok1
      exact absurd hok1 (by simp)
    · rw [hrs] at hok1
      have hok2 : (match _parse_iso rsStr with
          | Except.error e => Except.error e
          | Except.ok runStart =>
            match sIn.general_stats.run_end with
            | none => Except.error PyErr.noneTypeError
            | some rEnd =>
              match _parse_iso rEnd with
              | Except.error e => Except.error e
              | Except.ok runEnd =>
                Except.ok (⟨sIn.general_stats,
                  Row.general ⟨generalRowName input_dir, "None", isoformat runStart,
                    isoformat runEnd, sIn.general_stats.run_duration_seconds, none,
                    (sIn.entries.filter (fun e => e.produced_results)).length,
                    (sIn.entries.filter (fun e => decide (0 < e.results_count))).length,
                    (sIn.entries.filter (fun e => !e.produced_results)).length⟩ ::
                    sIn.entries.map Row.query⟩ : OverallOut)) = Except.ok out := hok1
      rcases hips : _parse_iso rsStr with e1 | runStartV
      · rw [hips] at hok2
        exact absurd hok2 (by simp)
      · rw [hips] at hok2
        have hok3 : (match sIn.general_stats.run_end with
            | none => Except.error PyErr.noneTypeError
            | some rEnd =>
              match _parse_iso rEnd with
              | Except.error e => Except.error e
              | Except.ok runEnd =>
                Except.ok (⟨sIn.general_stats,
                  Row.general ⟨generalRowName input_dir, "None", isoformat runStartV,
                    isoformat runEnd, sIn.general_stats.run_duration_seconds, none,
                    (sIn.entries.filter (fun e => e.produced_results)).length,
                    (sIn.entries.filter (fun e => decide (0 < e.results_count))).length,
                    (sIn.entries.filter (fun e => !e.produced_results)).length⟩ ::
                    sIn.entries.map Row.query⟩ : OverallOut)) = Except.ok out := hok2
        rcases hre : sIn.general_stats.run_end with _ | reStr
        · rw [hre] at hok3
          exact absurd hok3 (by simp)
        · rw [hre] at hok3
          have hok4 : (match _parse_iso reStr with
              | Except.error e => Except.error e
              | Except.ok runEnd =>
                Except.ok (⟨sIn.general_stats,
                  Row.general ⟨generalRowName input_dir, "None", isoformat runStartV,
                    isoformat runEnd, sIn.general_stats.run_duration_seconds, none,
                    (sIn.entries.filter (fun e => e.produced_results)).length,
                    (sIn.entries.filter (fun e => decide (0 < e.results_count))).length,
                    (sIn.entries.filter (fun e => !e.produced_results)).length⟩ ::
                    sIn.entries.map Row.query⟩ : OverallOut)) = Except.ok out := hok3
          rcases hipe : _parse_iso reStr with e2 | runEndV
          · rw [hipe] at hok4
            exact absurd hok4 (by simp)
          · rw [hipe] at hok4
            have hok5 : (⟨sIn.general_stats,
                Row.general ⟨generalRowName input_dir, "None", isoformat runStartV,
                  isoformat runEndV, sIn.general_stats.run_duration_seconds, none,
                  (sIn.entries.filter (fun e => e.produced_results)).length,
                  (sIn.entries.filter (fun e => decide (0 < e.results_count))).length,
                  (sIn.entries.filter (fun e => !e.produced_results)).length⟩ ::
                  sIn.entries.map Row.query⟩ : OverallOut) = out := by
              have h6 : (Except.ok (⟨sIn.general_stats,
                  Row.general ⟨generalRowName input_dir, "None", isoformat runStartV,
                    isoformat runEndV, sIn.general_stats.run_duration_seconds, none,
                    (sIn.entries.filter (fun e => e.produced_results)).length,
                    (sIn.entries.filter (fun e => decide (0 < e.results_count))).length,
                    (sIn.entries.filter (fun e => !e.produced_results)).length⟩ ::
                    sIn.entries.map Row.query⟩ : OverallOut) :
                  Except PyErr OverallOut) = Except.ok out := hok4
              simp only [Except.ok.injEq] at h6
              exact h6
            have hgs : out.general_stats = sIn.general_stats :=
              (congrArg (fun o => o.general_stats) hok5).symm
            refine ⟨?_, ?_, ?_, ?_, ?_⟩
            · rw [hgs, hdur, zero_add]
            · rw [← hok5]
              simp [hent]
            · refine ⟨⟨generalRowName input_dir, "None", isoformat runStartV,
                  isoformat runEndV, sIn.general_stats.run_duration_seconds, none,
                  (sIn.entries.filter (fun e => e.produced_results)).length,
                  (sIn.entries.filter (fun e => decide (0 < e.results_count))).length,
                  (sIn.entries.filter (fun e => !e.produced_results)).length⟩,
                by rw [← hok5]; rfl, ?_, ?_, ?_, ?_⟩
              · show sIn.general_stats.run_duration_seconds = _
                rw [hdur, zero_add]
              · show (sIn.entries.filter (fun e => e.produced_results)).length = _
                rw [hent]
              · show (sIn.entries.filter (fun e => !e.produced_results)).length = _
                rw [hent]
              · show (sIn.entries.filter (fun e => decide (0 < e.results_count))).length = _
                rw [hent]
            · rcases hpl : parsedStarts runs with _ | ⟨d, ds⟩
              · rw [hpl] at hstart
                rw [hrs] at hstart
                exact absurd hstart (by simp [optFoldMin])
              · rw [hpl] at hstart
                obtain ⟨m, hm, hmem, hled, hall⟩ := optFoldMin_some_spec ds d
                have hm2 : optFoldMin none (d :: ds) = some m := hm
                rw [hm2] at hstart
                refine ⟨m, ?_, ?_, ?_⟩
                · rcases hmem with h | h
                  · rw [h]
                    exact List.mem_cons_self _ _
                  · exact List.mem_cons_of_mem _ h
                · rw [hgs, hstart]
                  rfl
                · intro x hx
                  rcases List.mem_cons.mp hx with h | h
                  · rw [h]
                    exact hled
                  · exact hall x h
            · rcases hpl : parsedEnds runs with _ | ⟨d, ds⟩
              · rw [hpl] at hend
                rw [hre] at hend
                exact absurd hend (by simp [optFoldMax])
              · rw [hpl] at hend
                obtain ⟨m, hm, hmem, hled, hall⟩ := optFoldMax_some_spec ds d
                have hm2 : optFoldMax none (d :: ds) = some m := hm
                rw [hm2] at hend
                refine ⟨m, ?_, ?_, ?_⟩
                · rcases hmem with h | h
                  · rw [h]
                    exact List.mem_cons_self _ _
                  · exact List.mem_cons_of_mem _ h
                · rw [hgs, hend]
                  rfl
                · intro x hx
                  rcases List.mem_cons.mp hx with h | h
                  · rw [h]
                    exact hled
                  · exact hall x h

set_option maxRecDepth 40000 in
/-- Witness for claim C5 on the example of the claim: total duration
30.0, six entries, synthetic row first with produced-results 3 and
error 2. -/
theorem c5_aggregation_witness :
    runMainAggregation c5runs "results" = .ok c5out ∧
    c5out.general_stats.run_duration_seconds = 30 ∧
    c5out.entries.length = 6 ∧
    (∃ g, c5out.entries.head? = some (.general g) ∧ g.produced_results = 3 ∧
      g.error = 2 ∧ g.duration_seconds = 30) := by
  have h := c5_aggregation c5runs "results" c5out (by rfl)
  refine ⟨by rfl, ?_, ?_, ?_⟩
  · exact h.1.trans (by simp [c5runs]; norm_num)
  · exact h.2.1.trans (by rfl)
  · obtain ⟨g, hg1, hg2, hg3, hg4, hg5⟩ := h.2.2.1
    exact ⟨g, hg1, by rw [hg3]; rfl, by rw [hg4]; rfl, by rw [hg2]; simp [c5runs]; norm_num⟩

/-- Witness for claim C10 at a concrete source list element. -/
theorem c10_witness :
    "http://a/sparql" ∈
      sectionSources "Executing: node x http://a/sparql/ http://a/sparql -f q.rq".data ∧
    strEndsWith "http://a/sparql" "/" = false :=
  ⟨by decide,
   c10_trailing_slash.1 "Executing: node x http://a/sparql/ http://a/sparql -f q.rq".data
     "http://a/sparql" (by decide)⟩

end FedSurvey
